import Mathlib

/-!
# Verification of the Cluedo knowledge-base engine

Shallow embedding of the deduction core of `main.py`: the configuration
catalog, per-player knowledge records, disjunctive constraints, and the
`KnowledgeBase` recording operations with the fixed-point `deduce()` loop.
Python sets are modelled as `Finset String`, players are addressed by their
index in the roster list (Python compares `Player` objects by identity),
`ValueError` is modelled with `Except`, and the `console.print` calls of the
engine are modelled as an append-only log of structured messages.
-/

namespace Cluedo

/-- Embeds `CluedoConfiguration`: named lists of weapons, suspects, locations. -/
structure CluedoConfiguration where
  name : String
  weapons : List String
  suspects : List String
  locations : List String
deriving DecidableEq

/-- Embeds the `cards` property: `suspects + locations + weapons` (source order). -/
def CluedoConfiguration.cards (c : CluedoConfiguration) : List String :=
  c.suspects ++ c.locations ++ c.weapons

/-- The `STANDARD` configuration from the source. -/
def STANDARD : CluedoConfiguration :=
  { name := "Standard"
    weapons := ["Candlestick", "Dagger", "Lead Pipe", "Revolver", "Rope", "Wrench"]
    suspects := ["Scarlett", "Mustard", "White", "Green", "Peacock", "Plum"]
    locations := ["Ballroom", "Billiard Room", "Conservatory", "Dining Room", "Hall",
      "Kitchen", "Library", "Lounge", "Study"] }

/-- Embeds `Suggestion`: a suspect, weapon and location. -/
structure Suggestion where
  suspect : String
  weapon : String
  location : String
deriving DecidableEq

/-- Embeds the `Suggestion.cards` property.  Python builds a `set` of the three
fields; we use a deduplicated list (the claims below are only invoked where the
three cards are pairwise distinct, making the iteration order irrelevant). -/
def Suggestion.cardsList (s : Suggestion) : List String :=
  [s.suspect, s.weapon, s.location].dedup

/-- Embeds the mutable knowledge fields of `Player`: `cards` (certainly held)
and `not_cards` (certainly not held).  The `position`/`config` fields play no
role in the knowledge base and are omitted; `config` is passed explicitly. -/
structure Player where
  name : String
  cards : Finset String
  not_cards : Finset String
deriving DecidableEq

/-- Embeds Python `ValueError`. -/
inductive PyError where
  | valueError (msg : String)
deriving DecidableEq

instance {α β : Type} [DecidableEq α] [DecidableEq β] : DecidableEq (Except α β) :=
  fun x y =>
    match x, y with
    | .error a, .error b =>
      decidable_of_iff (a = b) ⟨fun h => by rw [h], fun h => by injection h⟩
    | .ok a, .ok b =>
      decidable_of_iff (a = b) ⟨fun h => by rw [h], fun h => by injection h⟩
    | .error _, .ok _ => isFalse (fun h => Except.noConfusion h)
    | .ok _, .error _ => isFalse (fun h => Except.noConfusion h)

/-- Embeds `Player.add_card`: raises `ValueError` for a card outside the catalog. -/
def Player.addCard (cfg : CluedoConfiguration) (p : Player) (card : String) :
    Except PyError Player :=
  if card ∈ cfg.cards then .ok { p with cards := insert card p.cards }
  else .error (.valueError "Not a valid card")

/-- Embeds `Player.mark_not_card`: unconditionally adds to `not_cards`. -/
def Player.markNotCard (p : Player) (card : String) : Player :=
  { p with not_cards := insert card p.not_cards }

/-- Embeds `Player.has_card`. -/
def Player.hasCard (p : Player) (card : String) : Prop :=
  card ∈ p.cards

instance (p : Player) (card : String) : Decidable (p.hasCard card) :=
  decidable_of_iff (card ∈ p.cards) Iff.rfl

/-- Embeds `Player.might_have_card`: the card is in neither set. -/
def Player.mightHaveCard (p : Player) (card : String) : Prop :=
  card ∉ p.cards ∧ card ∉ p.not_cards

instance (p : Player) (card : String) : Decidable (p.mightHaveCard card) :=
  decidable_of_iff (card ∉ p.cards ∧ card ∉ p.not_cards) Iff.rfl

/-- Embeds `Constraint`: a player (by roster index) showed one card of a set. -/
structure Constraint where
  playerIdx : Nat
  possible_cards : Finset String
deriving DecidableEq

/-- Embeds `Constraint.narrow`, reading the owning player's current state. -/
def Constraint.narrow (ct : Constraint) (p : Player) : Constraint :=
  ⟨ct.playerIdx, ct.possible_cards.filter (fun c => p.mightHaveCard c)⟩

/-- Embeds `Constraint.resolved`. -/
def Constraint.resolved (ct : Constraint) : Prop :=
  ct.possible_cards.card = 1

instance (ct : Constraint) : Decidable ct.resolved :=
  decidable_of_iff (ct.possible_cards.card = 1) Iff.rfl

/-- Embeds `Constraint.impossible`. -/
def Constraint.impossible (ct : Constraint) : Prop :=
  ct.possible_cards.card = 0

instance (ct : Constraint) : Decidable ct.impossible :=
  decidable_of_iff (ct.possible_cards.card = 0) Iff.rfl

/-- The three keys of the `solution_possibilities` dict. -/
inductive CardType where
  | suspect
  | weapon
  | location
deriving DecidableEq

/-- Structured model of the engine's `console.print` reports. -/
inductive LogMsg where
  | mustBeSolution (card : String)
  | onlyPlayerCouldHave (name : String) (card : String)
  | mustHave (name : String) (card : String)
  | contradiction (name : String) (cards : Finset String)
deriving DecidableEq

/-- Embeds the mutable state of `KnowledgeBase`.  The `possibilities` deep copy
of the configuration is never mutated by the source, so the configuration is
passed to the operations instead of stored. -/
structure KnowledgeBase where
  players : List Player
  unknown_cards : Finset String
  constraints : List Constraint
  sol_suspect : Finset String
  sol_weapon : Finset String
  sol_location : Finset String
  log : List LogMsg
deriving DecidableEq

/-- Look up `solution_possibilities[card_type]`. -/
def KnowledgeBase.solPoss (kb : KnowledgeBase) : CardType → Finset String
  | .suspect => kb.sol_suspect
  | .weapon => kb.sol_weapon
  | .location => kb.sol_location

/-- Assign `solution_possibilities[card_type] = s`. -/
def KnowledgeBase.setSol (kb : KnowledgeBase) : CardType → Finset String → KnowledgeBase
  | .suspect, s => { kb with sol_suspect := s }
  | .weapon, s => { kb with sol_weapon := s }
  | .location, s => { kb with sol_location := s }

/-- A fresh `KnowledgeBase` over a roster of player names (the solver creates
players with empty hands before constructing the knowledge base). -/
def initKB (cfg : CluedoConfiguration) (names : List String) : KnowledgeBase :=
  { players := names.map (fun n => ⟨n, ∅, ∅⟩)
    unknown_cards := cfg.cards.toFinset
    constraints := []
    sol_suspect := cfg.suspects.toFinset
    sol_weapon := cfg.weapons.toFinset
    sol_location := cfg.locations.toFinset
    log := [] }

/-- Placeholder player used as the `getD` default for roster lookups. -/
def dfltPlayer : Player := ⟨"", ∅, ∅⟩

/-- The player at roster index `i` (Python holds object references; an index
outside the roster behaves as an anonymous player with empty knowledge). -/
def getPlayer (kb : KnowledgeBase) (i : Nat) : Player :=
  kb.players.getD i dfltPlayer

/-- Embeds `KnowledgeBase.get_card_type` (the `possibilities` copy equals the
configuration): suspect, then weapon, then location, else `ValueError`. -/
def getCardType (cfg : CluedoConfiguration) (card : String) : Except PyError CardType :=
  if card ∈ cfg.suspects then .ok .suspect
  else if card ∈ cfg.weapons then .ok .weapon
  else if card ∈ cfg.locations then .ok .location
  else .error (.valueError ("Unknown card: " ++ card))

/-- Replace the element at index `i` (no-op out of range). -/
def modifyAt : List Player → Nat → (Player → Player) → List Player
  | [], _, _ => []
  | p :: rest, 0, f => f p :: rest
  | p :: rest, n + 1, f => p :: modifyAt rest n f

/-- The roster after `record_has_card`'s mutations: index `i` becomes the
granted player `p'`; every other player gets `mark_not_card card`. -/
def updateAll : List Player → Nat → Player → String → List Player
  | [], _, _, _ => []
  | _ :: rest, 0, p', card => p' :: rest.map (fun q => q.markNotCard card)
  | q :: rest, n + 1, p', card => q.markNotCard card :: updateAll rest n p' card

/-- Embeds `KnowledgeBase.record_has_card`. -/
def recordHasCard (cfg : CluedoConfiguration) (kb : KnowledgeBase) (i : Nat)
    (card : String) : Except PyError KnowledgeBase :=
  let p := getPlayer kb i
  if card ∈ p.cards then .ok kb
  else do
    let p' ← p.addCard cfg card
    let ct ← getCardType cfg card
    .ok ((KnowledgeBase.setSol
      { kb with
        players := updateAll kb.players i p' card
        unknown_cards := kb.unknown_cards.erase card }
      ct ((kb.solPoss ct).erase card)))

/-- Embeds `KnowledgeBase.record_does_not_have`: a bare `mark_not_card`. -/
def recordDoesNotHave (kb : KnowledgeBase) (i : Nat) (card : String) : KnowledgeBase :=
  { kb with players := modifyAt kb.players i (fun p => p.markNotCard card) }

/-- Embeds `KnowledgeBase.record_showed_one_of`. -/
def recordShowedOneOf (cfg : CluedoConfiguration) (kb : KnowledgeBase) (i : Nat)
    (possible : Finset String) : Except PyError KnowledgeBase :=
  let p := getPlayer kb i
  let unknownSubset := possible.filter (fun c => p.mightHaveCard c)
  if unknownSubset.card = 0 then .ok kb
  else if unknownSubset.card = 1 then
    recordHasCard cfg kb i ((unknownSubset.sort (fun a b => a ≤ b)).headD "")
  else .ok { kb with constraints := kb.constraints ++ [⟨i, unknownSubset⟩] }

/-- The shared "card must be in the solution" mutation: print the report,
collapse the category's candidate set to `{card}`, drop the card from
`unknown_cards`.  This exact statement sequence appears in both
`record_no_one_showed` and `_deduce_unique_owner`. -/
def collapseState (kb : KnowledgeBase) (card : String) (ct : CardType) : KnowledgeBase :=
  KnowledgeBase.setSol
    { kb with
      unknown_cards := kb.unknown_cards.erase card
      log := kb.log ++ [.mustBeSolution card] }
    ct {card}

/-- One iteration of the `record_no_one_showed` loop body for one card. -/
def noOneShowedStep (cfg : CluedoConfiguration) (yourIdx : Nat)
    (kb : KnowledgeBase) (card : String) : Except PyError KnowledgeBase :=
  if card ∈ (getPlayer kb yourIdx).cards then .ok kb
  else do
    let ct ← getCardType cfg card
    .ok (collapseState kb card ct)

/-- Embeds `KnowledgeBase.record_no_one_showed`. -/
def recordNoOneShowed (cfg : CluedoConfiguration) (kb : KnowledgeBase)
    (sugg : Suggestion) (yourIdx : Nat) : Except PyError KnowledgeBase :=
  sugg.cardsList.foldlM (noOneShowedStep cfg yourIdx) kb

/-- One iteration of the `_deduce_unique_owner` loop body for one card. -/
def uoStep (cfg : CluedoConfiguration) (acc : KnowledgeBase × Bool) (card : String) :
    Except PyError (KnowledgeBase × Bool) :=
  let kb := acc.1
  let owners := (List.range kb.players.length).filter
    (fun j => (getPlayer kb j).mightHaveCard card)
  if owners.length = 1 then do
    let j := owners.headD 0
    let kb1 := { kb with
      log := kb.log ++ [.onlyPlayerCouldHave (getPlayer kb j).name card] }
    let kb2 ← recordHasCard cfg kb1 j card
    .ok (kb2, true)
  else if owners.length = 0 then do
    let ct ← getCardType cfg card
    if 1 < (kb.solPoss ct).card then .ok (collapseState kb card ct, true)
    else .ok acc
  else .ok acc

/-- Embeds `KnowledgeBase._deduce_unique_owner`, iterating over a snapshot
(`list(self.unknown_cards)`) of the unknown cards. -/
def deduceUniqueOwner (cfg : CluedoConfiguration) (kb : KnowledgeBase) :
    Except PyError (KnowledgeBase × Bool) :=
  (kb.unknown_cards.sort (fun a b => a ≤ b)).foldlM (uoStep cfg) (kb, false)

/-- The inner player loop of `_deduce_solution_cards` for one solution card. -/
def scMark (solutionCard : String) (acc : KnowledgeBase × Bool) (j : Nat) :
    KnowledgeBase × Bool :=
  let kb := acc.1
  if (getPlayer kb j).mightHaveCard solutionCard then
    ({ kb with players := modifyAt kb.players j (fun p => p.markNotCard solutionCard) },
      true)
  else acc

/-- One card-type block of `_deduce_solution_cards`. -/
def scStep (acc : KnowledgeBase × Bool) (ct : CardType) : KnowledgeBase × Bool :=
  let kb := acc.1
  if (kb.solPoss ct).card = 1 then
    let solutionCard := ((kb.solPoss ct).sort (fun a b => a ≤ b)).headD ""
    (List.range kb.players.length).foldl (scMark solutionCard) acc
  else acc

/-- Embeds `KnowledgeBase._deduce_solution_cards` (dict order: suspect,
weapon, location). -/
def deduceSolutionCards (kb : KnowledgeBase) : KnowledgeBase × Bool :=
  [CardType.suspect, CardType.weapon, CardType.location].foldl scStep (kb, false)

/-- One iteration of the `_propagate_constraints` loop body: the accumulator
carries the state, the `new_constraints` list under construction, and the
changed flag. -/
def pcStep (cfg : CluedoConfiguration) (acc : KnowledgeBase × List Constraint × Bool)
    (ct : Constraint) : Except PyError (KnowledgeBase × List Constraint × Bool) :=
  let kb := acc.1
  let narrowed := ct.narrow (getPlayer kb ct.playerIdx)
  if narrowed.impossible then
    .ok ({ kb with
      log := kb.log ++ [.contradiction (getPlayer kb ct.playerIdx).name ct.possible_cards] },
      acc.2.1, acc.2.2)
  else if narrowed.resolved then do
    let card := (narrowed.possible_cards.sort (fun a b => a ≤ b)).headD ""
    let kb1 := { kb with
      log := kb.log ++ [.mustHave (getPlayer kb ct.playerIdx).name card] }
    let kb2 ← recordHasCard cfg kb1 ct.playerIdx card
    .ok (kb2, acc.2.1, true)
  else .ok (kb, acc.2.1 ++ [narrowed], acc.2.2)

/-- Embeds `KnowledgeBase._propagate_constraints`: fold over the stored
constraints, then install the rebuilt `new_constraints` list. -/
def propagateConstraints (cfg : CluedoConfiguration) (kb : KnowledgeBase) :
    Except PyError (KnowledgeBase × Bool) := do
  let (kb', newCs, changed) ← kb.constraints.foldlM (pcStep cfg) (kb, [], false)
  .ok ({ kb' with constraints := newCs }, changed)

/-- One pass of the `deduce` loop body: the three rules in source order, with
the changed flags or-ed (`changed |= rule()` runs every rule). -/
def deducePass (cfg : CluedoConfiguration) (kb : KnowledgeBase) :
    Except PyError (KnowledgeBase × Bool) := do
  let (kb1, c1) ← deduceUniqueOwner cfg kb
  let (kb2, c2) := deduceSolutionCards kb1
  let (kb3, c3) ← propagateConstraints cfg kb2
  .ok (kb3, c1 || c2 || c3)

/-- The `deduce` while-loop with explicit fuel; `none` means the fuel ran out
before the loop reached a pass with no change.  The boolean result is the
`overal_changed` flag. -/
def deduceAux (cfg : CluedoConfiguration) :
    Nat → KnowledgeBase → Option (Except PyError (KnowledgeBase × Bool))
  | 0, _ => none
  | fuel + 1, kb =>
    match deducePass cfg kb with
    | .error e => some (.error e)
    | .ok (kb', false) => some (.ok (kb', false))
    | .ok (kb', true) =>
      match deduceAux cfg fuel kb' with
      | none => none
      | some (.error e) => some (.error e)
      | some (.ok (kb'', _)) => some (.ok (kb'', true))

/-- How far one player's two knowledge sets are from covering the catalog. -/
def playerWeight (cfg : CluedoConfiguration) (p : Player) : Nat :=
  (cfg.cards.toFinset \ p.cards).card + (cfg.cards.toFinset \ p.not_cards).card

/-- Total player weight of a roster. -/
def rosterWeight (cfg : CluedoConfiguration) (l : List Player) : Nat :=
  (l.map (playerWeight cfg)).sum

/-- Termination measure for the `deduce` loop: how far each player's two sets
are from the full catalog, plus the size of `unknown_cards`, plus the number
of live constraints. -/
def kbMeasure (cfg : CluedoConfiguration) (kb : KnowledgeBase) : Nat :=
  rosterWeight cfg kb.players + kb.unknown_cards.card + kb.constraints.length

/-- Embeds `KnowledgeBase.deduce`: run the loop with provably sufficient fuel. -/
def deduce (cfg : CluedoConfiguration) (kb : KnowledgeBase) :
    Option (Except PyError (KnowledgeBase × Bool)) :=
  deduceAux cfg (kbMeasure cfg kb + 1) kb

/-- An observed event fed to the knowledge base by the driver. -/
inductive Event where
  | hasCard (i : Nat) (card : String)
  | doesNotHave (i : Nat) (card : String)
  | showedOneOf (i : Nat) (possible : Finset String)
  | noOneShowed (sugg : Suggestion) (yourIdx : Nat)
  | deduceEv
deriving DecidableEq

/-- Apply one event to the knowledge base. -/
def applyEvent (cfg : CluedoConfiguration) (e : Event) (kb : KnowledgeBase) :
    Option (Except PyError KnowledgeBase) :=
  match e with
  | .hasCard i card => some (recordHasCard cfg kb i card)
  | .doesNotHave i card => some (.ok (recordDoesNotHave kb i card))
  | .showedOneOf i possible => some (recordShowedOneOf cfg kb i possible)
  | .noOneShowed sugg yourIdx => some (recordNoOneShowed cfg kb sugg yourIdx)
  | .deduceEv => (deduce cfg kb).map (Except.map Prod.fst)

/-- Replay an event sequence against a knowledge base. -/
def replay (cfg : CluedoConfiguration) : List Event → KnowledgeBase →
    Option (Except PyError KnowledgeBase)
  | [], kb => some (.ok kb)
  | e :: es, kb =>
    match applyEvent cfg e kb with
    | some (.ok kb') => replay cfg es kb'
    | some (.error err) => some (.error err)
    | none => none

/-- Disjointness: no card is simultaneously in a player's `cards` and
`not_cards`. -/
def PlayersDisjoint (kb : KnowledgeBase) : Prop :=
  ∀ i, (getPlayer kb i).cards ∩ (getPlayer kb i).not_cards = ∅

/-- A card confirmed in one hand is marked impossible for every other player. -/
def HeldMarkedElsewhere (kb : KnowledgeBase) : Prop :=
  ∀ i j, i ≠ j → j < kb.players.length →
    ∀ c ∈ (getPlayer kb i).cards, c ∈ (getPlayer kb j).not_cards

/-- Every stored constraint refers to a roster player. -/
def ConstraintsInRoster (kb : KnowledgeBase) : Prop :=
  ∀ ct ∈ kb.constraints, ct.playerIdx < kb.players.length

/-- The knowledge-base consistency invariant maintained by guarded event
streams. -/
def KBInv (kb : KnowledgeBase) : Prop :=
  PlayersDisjoint kb ∧ HeldMarkedElsewhere kb ∧ ConstraintsInRoster kb

/-- Every solution candidate set stays inside the configured catalog. -/
def SolInCatalog (cfg : CluedoConfiguration) (kb : KnowledgeBase) : Prop :=
  ∀ t, kb.solPoss t ⊆ cfg.cards.toFinset

/-- While a solution candidate set still has at least two members, every
unknown card of that category is among the candidates. -/
def SolMemInv (cfg : CluedoConfiguration) (kb : KnowledgeBase) : Prop :=
  ∀ t c, 1 < (kb.solPoss t).card → c ∈ kb.unknown_cards →
    getCardType cfg c = .ok t → c ∈ kb.solPoss t

/-- An event is consistent with the current knowledge: positive facts are only
recorded for roster players and cards not already excluded for them, negative
facts only for cards not already held. -/
def eventOkB (kb : KnowledgeBase) : Event → Bool
  | .hasCard i card =>
      decide (i < kb.players.length) && decide (card ∉ (getPlayer kb i).not_cards)
  | .doesNotHave i card => decide (card ∉ (getPlayer kb i).cards)
  | .showedOneOf i _ => decide (i < kb.players.length)
  | .noOneShowed _ _ => true
  | .deduceEv => true

/-- Every event of the sequence is consistent with the knowledge state it is
applied to. -/
def goodTrace (cfg : CluedoConfiguration) : KnowledgeBase → List Event → Bool
  | _, [] => true
  | kb, e :: es =>
    eventOkB kb e &&
      (match applyEvent cfg e kb with
       | some (.ok kb') => goodTrace cfg kb' es
       | _ => true)

/-- Small configuration used for concrete witnesses and counterexamples. -/
def tinyCfg : CluedoConfiguration := ⟨"T", ["w1", "w2"], ["s1", "s2"], ["l1", "l2"]⟩

/-- Fresh two-player knowledge base over `tinyCfg`. -/
def tinyKB : KnowledgeBase := initKB tinyCfg ["A", "B"]

/-- The final state of a replay that is known to succeed (fallback: the
initial state). -/
def replayOkD (cfg : CluedoConfiguration) (es : List Event) (kb : KnowledgeBase) :
    KnowledgeBase :=
  match replay cfg es kb with
  | some (.ok kb') => kb'
  | _ => kb

/-- A two-player state over `tinyCfg` in which player 0 already holds `s1`. -/
def heldKB : KnowledgeBase :=
  { players := [⟨"A", {"s1"}, ∅⟩, ⟨"B", ∅, {"s1"}⟩]
    unknown_cards := (tinyCfg.cards.toFinset).erase "s1"
    constraints := []
    sol_suspect := {"s2"}
    sol_weapon := tinyCfg.weapons.toFinset
    sol_location := tinyCfg.locations.toFinset
    log := [] }

/-- A two-player state over `tinyCfg` holding one stored constraint that has
become impossible: player 0 supposedly showed one of `{s1}` but is known not
to hold `s1`. -/
def c7KB : KnowledgeBase :=
  { players := [⟨"A", ∅, {"s1"}⟩, ⟨"B", ∅, ∅⟩]
    unknown_cards := tinyCfg.cards.toFinset
    constraints := [⟨0, {"s1"}⟩]
    sol_suspect := tinyCfg.suspects.toFinset
    sol_weapon := tinyCfg.weapons.toFinset
    sol_location := tinyCfg.locations.toFinset
    log := [] }

/-- A two-player state over `tinyCfg` in which one stored constraint has
narrowed to zero candidates (player 0 excludes `s1`) while a second one
resolves to the single card `bogus`, a string outside the catalog — as
`record_showed_one_of` stores whatever candidate strings it is given, no
validation occurs before `record_has_card` raises. -/
def c7BadKB : KnowledgeBase :=
  { players := [⟨"A", ∅, {"s1"}⟩, ⟨"B", ∅, ∅⟩]
    unknown_cards := ∅
    constraints := [⟨0, {"s1"}⟩, ⟨1, {"bogus"}⟩]
    sol_suspect := tinyCfg.suspects.toFinset
    sol_weapon := tinyCfg.weapons.toFinset
    sol_location := tinyCfg.locations.toFinset
    log := [] }

/-- The state produced by the effect branch of `record_has_card`. -/
def rhcState (kb : KnowledgeBase) (i : Nat) (card : String) (ct : CardType) :
    KnowledgeBase :=
  KnowledgeBase.setSol
    { kb with
      players := updateAll kb.players i
        { getPlayer kb i with cards := insert card (getPlayer kb i).cards } card
      unknown_cards := kb.unknown_cards.erase card }
    ct ((kb.solPoss ct).erase card)

/-- Facts shared by every knowledge-base step: the roster length is stable,
per-player knowledge grows, `unknown_cards` shrinks, and the catalog and
candidate-membership invariants are preserved. -/
def StepOk (cfg : CluedoConfiguration) (kb kb' : KnowledgeBase) : Prop :=
  kb'.players.length = kb.players.length ∧
  (∀ j, (getPlayer kb j).cards ⊆ (getPlayer kb' j).cards) ∧
  (∀ j, (getPlayer kb j).not_cards ⊆ (getPlayer kb' j).not_cards) ∧
  kb'.unknown_cards ⊆ kb.unknown_cards ∧
  (SolInCatalog cfg kb → SolInCatalog cfg kb') ∧
  (SolMemInv cfg kb → SolMemInv cfg kb')

theorem StepOk.refl (cfg : CluedoConfiguration) (kb : KnowledgeBase) : StepOk cfg kb kb :=
  ⟨rfl, fun _ => Finset.Subset.refl _, fun _ => Finset.Subset.refl _,
    Finset.Subset.refl _, id, id⟩

theorem StepOk.trans {cfg : CluedoConfiguration} {kb1 kb2 kb3 : KnowledgeBase}
    (h1 : StepOk cfg kb1 kb2) (h2 : StepOk cfg kb2 kb3) : StepOk cfg kb1 kb3 :=
  ⟨h2.1.trans h1.1,
    fun j => (h1.2.1 j).trans (h2.2.1 j),
    fun j => (h1.2.2.1 j).trans (h2.2.2.1 j),
    h2.2.2.2.1.trans h1.2.2.2.1,
    fun h => h2.2.2.2.2.1 (h1.2.2.2.2.1 h),
    fun h => h2.2.2.2.2.2 (h1.2.2.2.2.2 h)⟩

theorem solPoss_setSol_self (kb : KnowledgeBase) (t : CardType) (s : Finset String) :
    ((kb.setSol t s).solPoss t) = s := by
  cases t <;> rfl

theorem solPoss_setSol (kb : KnowledgeBase) (t t' : CardType) (s : Finset String) :
    ((kb.setSol t s).solPoss t') = if t' = t then s else kb.solPoss t' := by
  cases t <;> cases t' <;> rfl

theorem setSol_players (kb : KnowledgeBase) (t : CardType) (s : Finset String) :
    (kb.setSol t s).players = kb.players := by
  cases t <;> rfl

theorem setSol_unknown (kb : KnowledgeBase) (t : CardType) (s : Finset String) :
    (kb.setSol t s).unknown_cards = kb.unknown_cards := by
  cases t <;> rfl

theorem setSol_constraints (kb : KnowledgeBase) (t : CardType) (s : Finset String) :
    (kb.setSol t s).constraints = kb.constraints := by
  cases t <;> rfl

theorem getCardType_ok_mem {cfg : CluedoConfiguration} {card : String} {ct : CardType}
    (h : getCardType cfg card = .ok ct) : card ∈ cfg.cards := by
  unfold getCardType at h
  unfold CluedoConfiguration.cards
  split at h
  · simp_all
  · split at h
    · simp_all
    · split at h
      · simp_all
      · exact absurd h (by simp)

theorem getCardType_of_mem {cfg : CluedoConfiguration} {card : String}
    (h : card ∈ cfg.cards) : ∃ ct, getCardType cfg card = .ok ct := by
  unfold CluedoConfiguration.cards at h
  unfold getCardType
  rcases List.mem_append.mp h with h' | h'
  · rcases List.mem_append.mp h' with h2 | h2
    · exact ⟨.suspect, by simp [h2]⟩
    · by_cases hs : card ∈ cfg.suspects
      · exact ⟨.suspect, by simp [hs]⟩
      · by_cases hw : card ∈ cfg.weapons
        · exact ⟨.weapon, by simp [hs, hw]⟩
        · exact ⟨.location, by simp [hs, hw, h2]⟩
  · by_cases hs : card ∈ cfg.suspects
    · exact ⟨.suspect, by simp [hs]⟩
    · exact ⟨.weapon, by simp [hs, h']⟩

theorem modifyAt_length (l : List Player) (i : Nat) (f : Player → Player) :
    (modifyAt l i f).length = l.length := by
  induction l generalizing i with
  | nil => rfl
  | cons p rest ih =>
    cases i with
    | zero => rfl
    | succ n => simp [modifyAt, ih]

theorem getD_modifyAt_self {l : List Player} {i : Nat} (f : Player → Player) (d : Player)
    (h : i < l.length) : (modifyAt l i f).getD i d = f (l.getD i d) := by
  induction l generalizing i with
  | nil => simp at h
  | cons p rest ih =>
    cases i with
    | zero => rfl
    | succ n =>
      have := ih (i := n) (by simpa using h)
      simpa [modifyAt] using this

theorem getD_modifyAt_ne {l : List Player} {i j : Nat} (f : Player → Player) (d : Player)
    (h : j ≠ i) : (modifyAt l i f).getD j d = l.getD j d := by
  induction l generalizing i j with
  | nil => rfl
  | cons p rest ih =>
    cases i with
    | zero =>
      cases j with
      | zero => exact absurd rfl h
      | succ m => rfl
    | succ n =>
      cases j with
      | zero => rfl
      | succ m =>
        have := ih (i := n) (j := m) (fun hc => h (by simp [hc]))
        simpa [modifyAt] using this

theorem updateAll_length (l : List Player) (i : Nat) (p' : Player) (card : String) :
    (updateAll l i p' card).length = l.length := by
  induction l generalizing i with
  | nil => rfl
  | cons q rest ih =>
    cases i with
    | zero => simp [updateAll]
    | succ n => simp [updateAll, ih]

theorem getD_updateAll_self {l : List Player} {i : Nat} (p' : Player) (card : String)
    (d : Player) (h : i < l.length) : (updateAll l i p' card).getD i d = p' := by
  induction l generalizing i with
  | nil => simp at h
  | cons q rest ih =>
    cases i with
    | zero => rfl
    | succ n =>
      have := ih (i := n) (by simpa using h)
      simpa [updateAll] using this

theorem getD_map_markNot {l : List Player} {m : Nat} (card : String) (d : Player)
    (h : m < l.length) :
    (l.map (fun q => q.markNotCard card)).getD m d = (l.getD m d).markNotCard card := by
  induction l generalizing m with
  | nil => simp at h
  | cons q rest ih =>
    cases m with
    | zero => rfl
    | succ k =>
      have := ih (m := k) (by simpa using h)
      simpa using this

theorem playerWeight_markNot_le (cfg : CluedoConfiguration) (p : Player) (card : String) :
    playerWeight cfg (p.markNotCard card) ≤ playerWeight cfg p := by
  unfold playerWeight Player.markNotCard
  exact Nat.add_le_add (Nat.le_refl _)
    (Finset.card_le_card
      (Finset.sdiff_subset_sdiff (Finset.Subset.refl _) (Finset.subset_insert _ _)))

theorem playerWeight_markNot_lt {cfg : CluedoConfiguration} {p : Player} {card : String}
    (hC : card ∈ cfg.cards) (hn : card ∉ p.not_cards) :
    playerWeight cfg (p.markNotCard card) < playerWeight cfg p := by
  unfold playerWeight Player.markNotCard
  apply Nat.add_lt_add_left
  apply Finset.card_lt_card
  refine (Finset.ssubset_iff_of_subset
    (Finset.sdiff_subset_sdiff (Finset.Subset.refl _) (Finset.subset_insert _ _))).mpr ?_
  exact ⟨card, Finset.mem_sdiff.mpr ⟨List.mem_toFinset.mpr hC, hn⟩,
    fun hmem => (Finset.mem_sdiff.mp hmem).2 (Finset.mem_insert_self _ _)⟩

theorem playerWeight_grant_le (cfg : CluedoConfiguration) (p : Player) (card : String) :
    playerWeight cfg { p with cards := insert card p.cards } ≤ playerWeight cfg p := by
  unfold playerWeight
  exact Nat.add_le_add
    (Finset.card_le_card
      (Finset.sdiff_subset_sdiff (Finset.Subset.refl _) (Finset.subset_insert _ _)))
    (Nat.le_refl _)

theorem playerWeight_grant_lt {cfg : CluedoConfiguration} {p : Player} {card : String}
    (hC : card ∈ cfg.cards) (hn : card ∉ p.cards) :
    playerWeight cfg { p with cards := insert card p.cards } < playerWeight cfg p := by
  unfold playerWeight
  apply Nat.add_lt_add_right
  apply Finset.card_lt_card
  refine (Finset.ssubset_iff_of_subset
    (Finset.sdiff_subset_sdiff (Finset.Subset.refl _) (Finset.subset_insert _ _))).mpr ?_
  exact ⟨card, Finset.mem_sdiff.mpr ⟨List.mem_toFinset.mpr hC, hn⟩,
    fun hmem => (Finset.mem_sdiff.mp hmem).2 (Finset.mem_insert_self _ _)⟩

theorem playerWeight_le_dflt (cfg : CluedoConfiguration) (p : Player) :
    playerWeight cfg p ≤ playerWeight cfg dfltPlayer := by
  unfold playerWeight dfltPlayer
  simp only [Finset.sdiff_empty]
  exact Nat.add_le_add (Finset.card_le_card (Finset.sdiff_subset))
    (Finset.card_le_card (Finset.sdiff_subset))

theorem rosterWeight_cons (cfg : CluedoConfiguration) (q : Player) (l : List Player) :
    rosterWeight cfg (q :: l) = playerWeight cfg q + rosterWeight cfg l := by
  simp [rosterWeight]

theorem rosterWeight_modifyAt_le (cfg : CluedoConfiguration) (l : List Player) (i : Nat)
    (f : Player → Player) (hf : ∀ p, playerWeight cfg (f p) ≤ playerWeight cfg p) :
    rosterWeight cfg (modifyAt l i f) ≤ rosterWeight cfg l := by
  induction l generalizing i with
  | nil => exact Nat.le_refl _
  | cons q rest ih =>
    cases i with
    | zero =>
      simp only [modifyAt, rosterWeight_cons]
      exact Nat.add_le_add (hf q) (Nat.le_refl _)
    | succ n =>
      simp only [modifyAt, rosterWeight_cons]
      exact Nat.add_le_add (Nat.le_refl _) (ih n)

theorem rosterWeight_modifyAt_lt {cfg : CluedoConfiguration} {l : List Player} {i : Nat}
    {f : Player → Player} (hf : ∀ p, playerWeight cfg (f p) ≤ playerWeight cfg p)
    (hi : i < l.length)
    (hlt : playerWeight cfg (f (l.getD i dfltPlayer)) < playerWeight cfg (l.getD i dfltPlayer)) :
    rosterWeight cfg (modifyAt l i f) < rosterWeight cfg l := by
  induction l generalizing i with
  | nil => simp at hi
  | cons q rest ih =>
    cases i with
    | zero =>
      simp only [modifyAt, rosterWeight_cons]
      exact Nat.add_lt_add_right (by simpa using hlt) _
    | succ n =>
      simp only [modifyAt, rosterWeight_cons]
      exact Nat.add_lt_add_left (ih (by simpa using hi) (by simpa using hlt)) _

theorem rosterWeight_map_markNot_le (cfg : CluedoConfiguration) (l : List Player)
    (card : String) :
    rosterWeight cfg (l.map (fun q => q.markNotCard card)) ≤ rosterWeight cfg l := by
  induction l with
  | nil => exact Nat.le_refl _
  | cons q rest ih =>
    simp only [List.map_cons, rosterWeight_cons]
    exact Nat.add_le_add (playerWeight_markNot_le cfg q card) ih

theorem rosterWeight_updateAll_le {cfg : CluedoConfiguration} {l : List Player} {i : Nat}
    {p' : Player} (card : String)
    (hle : playerWeight cfg p' ≤ playerWeight cfg (l.getD i dfltPlayer)) :
    rosterWeight cfg (updateAll l i p' card) ≤ rosterWeight cfg l := by
  induction l generalizing i with
  | nil => exact Nat.le_refl _
  | cons q rest ih =>
    cases i with
    | zero =>
      simp only [updateAll, rosterWeight_cons]
      exact Nat.add_le_add (by simpa using hle) (rosterWeight_map_markNot_le cfg rest card)
    | succ n =>
      simp only [updateAll, rosterWeight_cons]
      exact Nat.add_le_add (playerWeight_markNot_le cfg q card) (ih (by simpa using hle))

theorem rosterWeight_updateAll_lt {cfg : CluedoConfiguration} {l : List Player} {i : Nat}
    {p' : Player} (card : String) (hi : i < l.length)
    (hlt : playerWeight cfg p' < playerWeight cfg (l.getD i dfltPlayer)) :
    rosterWeight cfg (updateAll l i p' card) < rosterWeight cfg l := by
  induction l generalizing i with
  | nil => simp at hi
  | cons q rest ih =>
    cases i with
    | zero =>
      simp only [updateAll, rosterWeight_cons]
      exact Nat.add_lt_add_of_lt_of_le (by simpa using hlt)
        (rosterWeight_map_markNot_le cfg rest card)
    | succ n =>
      simp only [updateAll, rosterWeight_cons]
      exact Nat.add_lt_add_of_le_of_lt (playerWeight_markNot_le cfg q card)
        (ih (by simpa using hi) (by simpa using hlt))

theorem getD_updateAll_ne {l : List Player} {i j : Nat} (p' : Player) (card : String)
    (d : Player) (hne : j ≠ i) (hj : j < l.length) :
    (updateAll l i p' card).getD j d = (l.getD j d).markNotCard card := by
  induction l generalizing i j with
  | nil => simp at hj
  | cons q rest ih =>
    cases i with
    | zero =>
      cases j with
      | zero => exact absurd rfl hne
      | succ m =>
        simp only [updateAll, List.getD_cons_succ]
        exact getD_map_markNot card d (by simpa using hj)
    | succ n =>
      cases j with
      | zero => rfl
      | succ m =>
        have := ih (i := n) (j := m) (fun hc => hne (by simp [hc])) (by simpa using hj)
        simpa [updateAll] using this

theorem markNot_cards (p : Player) (card : String) :
    (p.markNotCard card).cards = p.cards := rfl

theorem markNot_not_cards (p : Player) (card : String) :
    (p.markNotCard card).not_cards = insert card p.not_cards := rfl

theorem getPlayer_oob {kb : KnowledgeBase} {j : Nat} (h : kb.players.length ≤ j) :
    getPlayer kb j = dfltPlayer := by
  unfold getPlayer
  exact List.getD_eq_default _ _ h

theorem recordHasCard_mem {cfg : CluedoConfiguration} {kb : KnowledgeBase} {i : Nat}
    {card : String} (h : card ∈ (getPlayer kb i).cards) :
    recordHasCard cfg kb i card = .ok kb := by
  simp [recordHasCard, h]

theorem recordHasCard_not_mem {cfg : CluedoConfiguration} {kb : KnowledgeBase} {i : Nat}
    {card : String} {ct : CardType} (hm : card ∉ (getPlayer kb i).cards)
    (hc : card ∈ cfg.cards) (hct : getCardType cfg card = .ok ct) :
    recordHasCard cfg kb i card = .ok (rhcState kb i card ct) := by
  simp [recordHasCard, hm, Player.addCard, hc, hct, rhcState, Bind.bind, Except.bind]

theorem recordHasCard_invalid {cfg : CluedoConfiguration} {kb : KnowledgeBase} {i : Nat}
    {card : String} (hm : card ∉ (getPlayer kb i).cards) (hc : card ∉ cfg.cards) :
    recordHasCard cfg kb i card = .error (.valueError "Not a valid card") := by
  simp [recordHasCard, hm, Player.addCard, hc, Bind.bind, Except.bind]

theorem recordHasCard_ok_cases {cfg : CluedoConfiguration} {kb : KnowledgeBase} {i : Nat}
    {card : String} {kb' : KnowledgeBase} (h : recordHasCard cfg kb i card = .ok kb') :
    (card ∈ (getPlayer kb i).cards ∧ kb' = kb) ∨
    (card ∉ (getPlayer kb i).cards ∧ card ∈ cfg.cards ∧
      ∃ ct, getCardType cfg card = .ok ct ∧ kb' = rhcState kb i card ct) := by
  by_cases hm : card ∈ (getPlayer kb i).cards
  · rw [recordHasCard_mem hm] at h
    injection h with h
    exact Or.inl ⟨hm, h.symm⟩
  · by_cases hc : card ∈ cfg.cards
    · obtain ⟨ct, hct⟩ := getCardType_of_mem hc
      rw [recordHasCard_not_mem hm hc hct] at h
      injection h with h
      exact Or.inr ⟨hm, hc, ct, hct, h.symm⟩
    · rw [recordHasCard_invalid hm hc] at h
      cases h

theorem rhcState_players_length (kb : KnowledgeBase) (i : Nat) (card : String)
    (ct : CardType) : (rhcState kb i card ct).players.length = kb.players.length := by
  rw [rhcState, setSol_players]
  exact updateAll_length _ _ _ _

theorem getPlayer_rhcState_self {kb : KnowledgeBase} {i : Nat} (card : String)
    (ct : CardType) (hi : i < kb.players.length) :
    getPlayer (rhcState kb i card ct) i =
      { getPlayer kb i with cards := insert card (getPlayer kb i).cards } := by
  unfold getPlayer
  rw [rhcState, setSol_players]
  exact getD_updateAll_self _ _ _ hi

theorem getPlayer_rhcState_ne {kb : KnowledgeBase} {i j : Nat} (card : String)
    (ct : CardType) (hne : j ≠ i) (hj : j < kb.players.length) :
    getPlayer (rhcState kb i card ct) j = (getPlayer kb j).markNotCard card := by
  unfold getPlayer
  rw [rhcState, setSol_players]
  exact getD_updateAll_ne _ _ _ hne hj

theorem rhcState_unknown (kb : KnowledgeBase) (i : Nat) (card : String) (ct : CardType) :
    (rhcState kb i card ct).unknown_cards = kb.unknown_cards.erase card := by
  rw [rhcState, setSol_unknown]

theorem rhcState_constraints (kb : KnowledgeBase) (i : Nat) (card : String)
    (ct : CardType) : (rhcState kb i card ct).constraints = kb.constraints := by
  rw [rhcState, setSol_constraints]

theorem rhcState_solPoss (kb : KnowledgeBase) (i : Nat) (card : String) (ct t : CardType) :
    (rhcState kb i card ct).solPoss t =
      if t = ct then (kb.solPoss ct).erase card else kb.solPoss t := by
  cases ct <;> cases t <;>
    simp [rhcState, KnowledgeBase.setSol, KnowledgeBase.solPoss]

theorem rhcState_solPoss_subset (kb : KnowledgeBase) (i : Nat) (card : String)
    (ct t : CardType) : (rhcState kb i card ct).solPoss t ⊆ kb.solPoss t := by
  rw [rhcState_solPoss]
  split
  · next heq => rw [heq]; exact Finset.erase_subset _ _
  · exact Finset.Subset.refl _

theorem rhc_spec {cfg : CluedoConfiguration} {kb : KnowledgeBase} {i : Nat}
    {card : String} {kb' : KnowledgeBase} (h : recordHasCard cfg kb i card = .ok kb') :
    StepOk cfg kb kb' ∧
    (∀ c ∈ kb.unknown_cards, c ≠ card → c ∈ kb'.unknown_cards) ∧
    kb'.constraints = kb.constraints ∧
    (∀ t, kb'.solPoss t ⊆ kb.solPoss t) ∧
    kbMeasure cfg kb' ≤ kbMeasure cfg kb ∧
    (card ∉ (getPlayer kb i).cards → i < kb.players.length →
      kbMeasure cfg kb' < kbMeasure cfg kb) := by
  rcases recordHasCard_ok_cases h with ⟨hm, rfl⟩ | ⟨hm, hc, ct, hct, rfl⟩
  · exact ⟨StepOk.refl _ _, fun c hc _ => hc, rfl, fun _ => Finset.Subset.refl _,
      Nat.le_refl _, fun hnm _ => absurd hm hnm⟩
  · have hlen := rhcState_players_length kb i card ct
    have hcards : ∀ j, (getPlayer kb j).cards ⊆ (getPlayer (rhcState kb i card ct) j).cards := by
      intro j
      by_cases hj : j < kb.players.length
      · by_cases hji : j = i
        · subst hji
          rw [getPlayer_rhcState_self card ct hj]
          exact Finset.subset_insert _ _
        · rw [getPlayer_rhcState_ne card ct hji hj, markNot_cards]
      · rw [getPlayer_oob (Nat.le_of_not_lt hj), getPlayer_oob (hlen ▸ Nat.le_of_not_lt hj)]
    have hnots : ∀ j, (getPlayer kb j).not_cards ⊆
        (getPlayer (rhcState kb i card ct) j).not_cards := by
      intro j
      by_cases hj : j < kb.players.length
      · by_cases hji : j = i
        · subst hji
          rw [getPlayer_rhcState_self card ct hj]
        · rw [getPlayer_rhcState_ne card ct hji hj, markNot_not_cards]
          exact Finset.subset_insert _ _
      · rw [getPlayer_oob (Nat.le_of_not_lt hj), getPlayer_oob (hlen ▸ Nat.le_of_not_lt hj)]
    have hunk : (rhcState kb i card ct).unknown_cards ⊆ kb.unknown_cards := by
      rw [rhcState_unknown]
      exact Finset.erase_subset _ _
    have hsolsub : ∀ t, (rhcState kb i card ct).solPoss t ⊆ kb.solPoss t :=
      rhcState_solPoss_subset kb i card ct
    refine ⟨⟨hlen, hcards, hnots, hunk, ?_, ?_⟩, ?_, rhcState_constraints kb i card ct,
      hsolsub, ?_, ?_⟩
    · intro hcat t
      exact (hsolsub t).trans (hcat t)
    · intro hM t c h1 h2 h3
      rw [rhcState_unknown] at h2
      obtain ⟨hcne, hcu⟩ := Finset.mem_erase.mp h2
      have h1' : 1 < (kb.solPoss t).card :=
        Nat.lt_of_lt_of_le h1 (Finset.card_le_card (hsolsub t))
      have hmem := hM t c h1' hcu h3
      rw [rhcState_solPoss]
      split
      · next heq => subst heq; exact Finset.mem_erase.mpr ⟨hcne, hmem⟩
      · exact hmem
    · intro c hcu hcne
      rw [rhcState_unknown]
      exact Finset.mem_erase.mpr ⟨hcne, hcu⟩
    · unfold kbMeasure
      rw [rhcState_unknown, rhcState_constraints, rhcState, setSol_players]
      exact Nat.add_le_add
        (Nat.add_le_add
          (rosterWeight_updateAll_le card (playerWeight_grant_le cfg (getPlayer kb i) card))
          (Finset.card_le_card (Finset.erase_subset _ _)))
        (Nat.le_refl _)
    · intro hnm hi
      unfold kbMeasure
      rw [rhcState_unknown, rhcState_constraints, rhcState, setSol_players]
      exact Nat.add_lt_add_of_lt_of_le
        (Nat.add_lt_add_of_lt_of_le
          (rosterWeight_updateAll_lt card hi (playerWeight_grant_lt hc hnm))
          (Finset.card_le_card (Finset.erase_subset _ _)))
        (Nat.le_refl _)

theorem rhc_KBInv {cfg : CluedoConfiguration} {kb : KnowledgeBase} {i : Nat}
    {card : String} {kb' : KnowledgeBase} (hInv : KBInv kb)
    (hi : i < kb.players.length) (hn : card ∉ (getPlayer kb i).not_cards)
    (h : recordHasCard cfg kb i card = .ok kb') : KBInv kb' := by
  obtain ⟨hD, hH, hC⟩ := hInv
  rcases recordHasCard_ok_cases h with ⟨_, rfl⟩ | ⟨hm, hc, ct, hct, rfl⟩
  · exact ⟨hD, hH, hC⟩
  · have hlen := rhcState_players_length kb i card ct
    refine ⟨?_, ?_, ?_⟩
    · intro j
      by_cases hj : j < kb.players.length
      · by_cases hji : j = i
        · subst hji
          rw [getPlayer_rhcState_self card ct hj]
          rw [Finset.eq_empty_iff_forall_not_mem]
          intro x hx
          obtain ⟨hx1, hx2⟩ := Finset.mem_inter.mp hx
          rcases Finset.mem_insert.mp hx1 with hxc | hxc
          · exact hn (hxc ▸ hx2)
          · exact Finset.eq_empty_iff_forall_not_mem.mp (hD j)
              x (Finset.mem_inter.mpr ⟨hxc, hx2⟩)
        · rw [getPlayer_rhcState_ne card ct hji hj, markNot_cards, markNot_not_cards]
          rw [Finset.eq_empty_iff_forall_not_mem]
          intro x hx
          obtain ⟨hx1, hx2⟩ := Finset.mem_inter.mp hx
          rcases Finset.mem_insert.mp hx2 with hxc | hxc
          · subst hxc
            exact hn (hH j i hji hi x hx1)
          · exact Finset.eq_empty_iff_forall_not_mem.mp (hD j)
              x (Finset.mem_inter.mpr ⟨hx1, hxc⟩)
      · rw [getPlayer_oob (hlen ▸ Nat.le_of_not_lt hj)]
        simp [dfltPlayer]
    · intro a b hab hb c hca
      rw [hlen] at hb
      by_cases haL : a < kb.players.length
      · by_cases hai : a = i
        · subst hai
          rw [getPlayer_rhcState_self card ct haL] at hca
          have hbne : b ≠ a := fun hc' => hab hc'.symm
          rw [getPlayer_rhcState_ne card ct hbne hb, markNot_not_cards]
          rcases Finset.mem_insert.mp hca with hcc | hcc
          · exact hcc ▸ Finset.mem_insert_self _ _
          · exact Finset.mem_insert_of_mem (hH a b hab hb c hcc)
        · rw [getPlayer_rhcState_ne card ct hai haL, markNot_cards] at hca
          have hold := hH a b hab hb c hca
          by_cases hbi : b = i
          · subst hbi
            rw [getPlayer_rhcState_self card ct hb]
            exact hold
          · rw [getPlayer_rhcState_ne card ct hbi hb, markNot_not_cards]
            exact Finset.mem_insert_of_mem hold
      · rw [getPlayer_oob (hlen ▸ Nat.le_of_not_lt haL)] at hca
        simp [dfltPlayer] at hca
    · intro c hcc
      rw [rhcState_constraints] at hcc
      rw [rhcState_players_length]
      exact hC c hcc

theorem collapseState_players (kb : KnowledgeBase) (card : String) (ct : CardType) :
    (collapseState kb card ct).players = kb.players := by
  rw [collapseState, setSol_players]

theorem getPlayer_collapseState (kb : KnowledgeBase) (card : String) (ct : CardType)
    (j : Nat) : getPlayer (collapseState kb card ct) j = getPlayer kb j := by
  unfold getPlayer
  rw [collapseState_players]

theorem collapseState_unknown (kb : KnowledgeBase) (card : String) (ct : CardType) :
    (collapseState kb card ct).unknown_cards = kb.unknown_cards.erase card := by
  rw [collapseState, setSol_unknown]

theorem collapseState_constraints (kb : KnowledgeBase) (card : String) (ct : CardType) :
    (collapseState kb card ct).constraints = kb.constraints := by
  rw [collapseState, setSol_constraints]

theorem collapseState_solPoss (kb : KnowledgeBase) (card : String) (ct t : CardType) :
    (collapseState kb card ct).solPoss t = if t = ct then {card} else kb.solPoss t := by
  cases ct <;> cases t <;>
    simp [collapseState, KnowledgeBase.setSol, KnowledgeBase.solPoss]

theorem collapse_spec {cfg : CluedoConfiguration} {kb : KnowledgeBase} {card : String}
    {ct : CardType} (hct : getCardType cfg card = .ok ct) :
    StepOk cfg kb (collapseState kb card ct) ∧
    (∀ c ∈ kb.unknown_cards, c ≠ card → c ∈ (collapseState kb card ct).unknown_cards) ∧
    (collapseState kb card ct).constraints = kb.constraints ∧
    kbMeasure cfg (collapseState kb card ct) ≤ kbMeasure cfg kb ∧
    (card ∈ kb.unknown_cards → kbMeasure cfg (collapseState kb card ct) < kbMeasure cfg kb) ∧
    (SolMemInv cfg kb → card ∈ kb.unknown_cards → 1 < (kb.solPoss ct).card →
      ∀ t, (collapseState kb card ct).solPoss t ⊆ kb.solPoss t) ∧
    (KBInv kb → KBInv (collapseState kb card ct)) := by
  have hcC : card ∈ cfg.cards := getCardType_ok_mem hct
  refine ⟨⟨?_, ?_, ?_, ?_, ?_, ?_⟩, ?_, collapseState_constraints kb card ct, ?_, ?_, ?_, ?_⟩
  · rw [collapseState_players]
  · intro j
    rw [getPlayer_collapseState]
  · intro j
    rw [getPlayer_collapseState]
  · rw [collapseState_unknown]
    exact Finset.erase_subset _ _
  · intro hcat t
    rw [collapseState_solPoss]
    split
    · intro x hx
      rw [Finset.mem_singleton.mp hx]
      exact List.mem_toFinset.mpr hcC
    · exact hcat t
  · intro hM t c h1 h2 h3
    rw [collapseState_unknown] at h2
    obtain ⟨hcne, hcu⟩ := Finset.mem_erase.mp h2
    rw [collapseState_solPoss] at h1 ⊢
    split at h1
    · simp at h1
    · next hne =>
      rw [if_neg hne]
      exact hM t c h1 hcu h3
  · intro c hcu hcne
    rw [collapseState_unknown]
    exact Finset.mem_erase.mpr ⟨hcne, hcu⟩
  · unfold kbMeasure
    rw [collapseState_players, collapseState_unknown, collapseState_constraints]
    exact Nat.add_le_add
      (Nat.add_le_add (Nat.le_refl _) (Finset.card_le_card (Finset.erase_subset _ _)))
      (Nat.le_refl _)
  · intro hcard
    unfold kbMeasure
    rw [collapseState_players, collapseState_unknown, collapseState_constraints]
    exact Nat.add_lt_add_of_lt_of_le
      (Nat.add_lt_add_of_le_of_lt (Nat.le_refl _) (Finset.card_erase_lt_of_mem hcard))
      (Nat.le_refl _)
  · intro hM hcard h1 t
    rw [collapseState_solPoss]
    split
    · next heq =>
      subst heq
      exact Finset.singleton_subset_iff.mpr (hM t card h1 hcard hct)
    · exact Finset.Subset.refl _
  · intro hI
    obtain ⟨hD, hH, hC⟩ := hI
    refine ⟨?_, ?_, ?_⟩
    · intro j
      rw [getPlayer_collapseState]
      exact hD j
    · intro a b hab hb c hca
      rw [collapseState_players] at hb
      rw [getPlayer_collapseState] at hca ⊢
      exact hH a b hab hb c hca
    · intro c hcc
      rw [collapseState_constraints] at hcc
      rw [collapseState_players]
      exact hC c hcc

theorem uoStep_spec {cfg : CluedoConfiguration} {kb : KnowledgeBase} {b : Bool}
    {card : String} {kb' : KnowledgeBase} {b' : Bool}
    (hcard : card ∈ kb.unknown_cards)
    (h : uoStep cfg (kb, b) card = .ok (kb', b')) :
    StepOk cfg kb kb' ∧
    (∀ c ∈ kb.unknown_cards, c ≠ card → c ∈ kb'.unknown_cards) ∧
    kb'.constraints = kb.constraints ∧
    kbMeasure cfg kb' ≤ kbMeasure cfg kb ∧
    (b' = true → b = true ∨ kbMeasure cfg kb' < kbMeasure cfg kb) ∧
    (SolMemInv cfg kb → ∀ t, kb'.solPoss t ⊆ kb.solPoss t) ∧
    (KBInv kb → KBInv kb') := by
  unfold uoStep at h
  dsimp only at h
  split at h
  · next h1 =>
    obtain ⟨j0, hj0⟩ := List.length_eq_one.mp h1
    rw [hj0] at h
    have hj0mem := List.mem_filter.mp (hj0 ▸ List.mem_singleton_self j0)
    have hj0lt : j0 < kb.players.length := List.mem_range.mp hj0mem.1
    have hj0might : (getPlayer kb j0).mightHaveCard card := of_decide_eq_true hj0mem.2
    simp only [List.headD_cons] at h
    cases hr : recordHasCard cfg
        { kb with log := kb.log ++ [.onlyPlayerCouldHave (getPlayer kb j0).name card] }
        j0 card with
    | error e =>
      rw [hr] at h
      simp [Bind.bind, Except.bind] at h
    | ok kb2 =>
      rw [hr] at h
      simp only [Bind.bind, Except.bind, Except.ok.injEq, Prod.mk.injEq] at h
      obtain ⟨rfl, rfl⟩ := h
      obtain ⟨hSO, hunkeep, hcons, hsol, hle, hlt⟩ := rhc_spec hr
      refine ⟨hSO, hunkeep, hcons, hle,
        fun _ => Or.inr (hlt hj0might.1 hj0lt),
        fun _ => hsol, fun hI => ?_⟩
      exact rhc_KBInv
        (show KBInv { kb with
          log := kb.log ++ [.onlyPlayerCouldHave (getPlayer kb j0).name card] } from hI)
        hj0lt hj0might.2 hr
  · split at h
    · next h0 =>
      cases hct : getCardType cfg card with
      | error e =>
        rw [hct] at h
        simp [Bind.bind, Except.bind] at h
      | ok ct =>
        rw [hct] at h
        simp only [Bind.bind, Except.bind] at h
        split at h
        · next hgt =>
          simp only [Except.ok.injEq, Prod.mk.injEq] at h
          obtain ⟨rfl, rfl⟩ := h
          obtain ⟨hSO, hunkeep, hcons, hle, hltm, hshrink, hinv⟩ := collapse_spec hct
          exact ⟨hSO, hunkeep, hcons, hle,
            fun _ => Or.inr (hltm hcard),
            fun hM => hshrink hM hcard hgt,
            hinv⟩
        · simp only [Except.ok.injEq, Prod.mk.injEq] at h
          obtain ⟨rfl, rfl⟩ := h
          exact ⟨StepOk.refl _ _, fun c hc _ => hc, rfl, Nat.le_refl _,
            fun hb => Or.inl hb, fun _ _ => Finset.Subset.refl _, id⟩
    · simp only [Except.ok.injEq, Prod.mk.injEq] at h
      obtain ⟨rfl, rfl⟩ := h
      exact ⟨StepOk.refl _ _, fun c hc _ => hc, rfl, Nat.le_refl _,
        fun hb => Or.inl hb, fun _ _ => Finset.Subset.refl _, id⟩

theorem uo_fold_spec {cfg : CluedoConfiguration} :
    ∀ (cards : List String) (kb : KnowledgeBase) (b : Bool) {kb' : KnowledgeBase}
      {b' : Bool}, cards.Nodup → (∀ c ∈ cards, c ∈ kb.unknown_cards) →
      cards.foldlM (uoStep cfg) (kb, b) = .ok (kb', b') →
      StepOk cfg kb kb' ∧
      kb'.constraints = kb.constraints ∧
      kbMeasure cfg kb' ≤ kbMeasure cfg kb ∧
      (b' = true → b = true ∨ kbMeasure cfg kb' < kbMeasure cfg kb) ∧
      (SolMemInv cfg kb → ∀ t, kb'.solPoss t ⊆ kb.solPoss t) ∧
      (KBInv kb → KBInv kb')
  | [], kb, b, kb', b', _, _, h => by
    simp only [List.foldlM_nil, pure, Except.pure, Except.ok.injEq, Prod.mk.injEq] at h
    obtain ⟨rfl, rfl⟩ := h
    exact ⟨StepOk.refl _ _, rfl, Nat.le_refl _, fun hb => Or.inl hb,
      fun _ _ => Finset.Subset.refl _, id⟩
  | c :: cs, kb, b, kb', b', hnd, hmem, h => by
    rw [List.foldlM_cons] at h
    cases hstep : uoStep cfg (kb, b) c with
    | error e =>
      rw [hstep] at h
      simp [Bind.bind, Except.bind] at h
    | ok acc1 =>
      rw [hstep] at h
      simp only [Bind.bind, Except.bind] at h
      obtain ⟨kb1, b1⟩ := acc1
      obtain ⟨hSO1, hkeep1, hcons1, hle1, hch1, hshr1, hinv1⟩ :=
        uoStep_spec (hmem c (List.mem_cons_self c cs)) hstep
      have hnd' := (List.nodup_cons.mp hnd).2
      have hcnotin := (List.nodup_cons.mp hnd).1
      have hmem' : ∀ c' ∈ cs, c' ∈ kb1.unknown_cards := by
        intro c' hc'
        exact hkeep1 c' (hmem c' (List.mem_cons_of_mem c hc'))
          (fun hcc => hcnotin (hcc ▸ hc'))
      obtain ⟨hSO2, hcons2, hle2, hch2, hshr2, hinv2⟩ :=
        uo_fold_spec cs kb1 b1 hnd' hmem' h
      refine ⟨hSO1.trans hSO2, hcons2.trans hcons1, hle2.trans hle1, ?_, ?_,
        fun hI => hinv2 (hinv1 hI)⟩
      · intro hb'
        rcases hch2 hb' with hb1 | hlt2
        · rcases hch1 hb1 with hb | hlt1
          · exact Or.inl hb
          · exact Or.inr (Nat.lt_of_le_of_lt hle2 hlt1)
        · exact Or.inr (Nat.lt_of_lt_of_le hlt2 hle1)
      · intro hM t
        exact (hshr2 (hSO1.2.2.2.2.2 hM) t).trans (hshr1 hM t)

theorem deduceUniqueOwner_spec {cfg : CluedoConfiguration} {kb kb' : KnowledgeBase}
    {b' : Bool} (h : deduceUniqueOwner cfg kb = .ok (kb', b')) :
    StepOk cfg kb kb' ∧
    kb'.constraints = kb.constraints ∧
    kbMeasure cfg kb' ≤ kbMeasure cfg kb ∧
    (b' = true → kbMeasure cfg kb' < kbMeasure cfg kb) ∧
    (SolMemInv cfg kb → ∀ t, kb'.solPoss t ⊆ kb.solPoss t) ∧
    (KBInv kb → KBInv kb') := by
  unfold deduceUniqueOwner at h
  obtain ⟨hSO, hcons, hle, hch, hshr, hinv⟩ :=
    uo_fold_spec _ kb false (Finset.sort_nodup _ _)
      (fun c hc => (Finset.mem_sort _).mp hc) h
  refine ⟨hSO, hcons, hle, ?_, hshr, hinv⟩
  intro hb'
  rcases hch hb' with hfalse | hlt
  · cases hfalse
  · exact hlt

theorem disjoint_insert_not {p : Player} {card : String}
    (hD : p.cards ∩ p.not_cards = ∅) (hc : card ∉ p.cards) :
    p.cards ∩ insert card p.not_cards = ∅ := by
  rw [Finset.eq_empty_iff_forall_not_mem]
  intro x hx
  obtain ⟨hx1, hx2⟩ := Finset.mem_inter.mp hx
  rcases Finset.mem_insert.mp hx2 with hxc | hxc
  · exact hc (hxc ▸ hx1)
  · exact Finset.eq_empty_iff_forall_not_mem.mp hD x (Finset.mem_inter.mpr ⟨hx1, hxc⟩)

theorem scMark_spec {cfg : CluedoConfiguration} {sc : String} {kb : KnowledgeBase}
    {b : Bool} {j : Nat} {kb' : KnowledgeBase} {b' : Bool}
    (hsc : sc ∈ cfg.cards) (hj : j < kb.players.length)
    (h : scMark sc (kb, b) j = (kb', b')) :
    kb'.players.length = kb.players.length ∧
    (∀ i, (getPlayer kb i).cards ⊆ (getPlayer kb' i).cards) ∧
    (∀ i, (getPlayer kb i).not_cards ⊆ (getPlayer kb' i).not_cards) ∧
    kb'.unknown_cards = kb.unknown_cards ∧
    (∀ t, kb'.solPoss t = kb.solPoss t) ∧
    kb'.constraints = kb.constraints ∧
    kbMeasure cfg kb' ≤ kbMeasure cfg kb ∧
    (b' = true → b = true ∨ kbMeasure cfg kb' < kbMeasure cfg kb) ∧
    (KBInv kb → KBInv kb') := by
  unfold scMark at h
  dsimp only at h
  split at h
  · next hmight =>
    rw [Prod.mk.injEq] at h
    obtain ⟨rfl, rfl⟩ := h
    have hlen : (modifyAt kb.players j (fun p => p.markNotCard sc)).length =
        kb.players.length := modifyAt_length _ _ _
    have hget : ∀ i, getPlayer { kb with
        players := modifyAt kb.players j (fun p => p.markNotCard sc) } i =
        if i = j then (getPlayer kb j).markNotCard sc else getPlayer kb i := by
      intro i
      split
      · next hij =>
        subst hij
        exact getD_modifyAt_self _ _ hj
      · next hij => exact getD_modifyAt_ne _ _ hij
    refine ⟨hlen, ?_, ?_, rfl, fun _ => rfl, rfl, ?_, ?_, ?_⟩
    · intro i
      rw [hget i]
      split
      · next hij => subst hij; rw [markNot_cards]
      · exact Finset.Subset.refl _
    · intro i
      rw [hget i]
      split
      · next hij =>
        subst hij
        rw [markNot_not_cards]
        exact Finset.subset_insert _ _
      · exact Finset.Subset.refl _
    · unfold kbMeasure
      dsimp only
      exact Nat.add_le_add
        (Nat.add_le_add
          (rosterWeight_modifyAt_le cfg _ _ _ (fun p => playerWeight_markNot_le cfg p sc))
          (Nat.le_refl _))
        (Nat.le_refl _)
    · intro _
      refine Or.inr ?_
      unfold kbMeasure
      dsimp only
      refine Nat.add_lt_add_of_lt_of_le (Nat.add_lt_add_of_lt_of_le ?_ (Nat.le_refl _))
        (Nat.le_refl _)
      exact rosterWeight_modifyAt_lt (fun p => playerWeight_markNot_le cfg p sc) hj
        (playerWeight_markNot_lt hsc hmight.2)
    · intro ⟨hD, hH, hC⟩
      refine ⟨?_, ?_, ?_⟩
      · intro i
        rw [hget i]
        split
        · next hij =>
          subst hij
          rw [markNot_cards, markNot_not_cards]
          exact disjoint_insert_not (hD i) hmight.1
        · exact hD i
      · intro a c hac hc x hx
        rw [hget a] at hx
        rw [hget c]
        have hc' : c < kb.players.length := hlen ▸ hc
        have hxa : x ∈ (getPlayer kb a).cards := by
          revert hx
          split
          · next hij => subst hij; rw [markNot_cards]; exact id
          · exact id
        have hold := hH a c hac hc' x hxa
        split
        · next hij =>
          subst hij
          rw [markNot_not_cards]
          exact Finset.mem_insert_of_mem hold
        · exact hold
      · intro ctr hctr
        rw [hlen]
        exact hC ctr hctr
  · rw [Prod.mk.injEq] at h
    obtain ⟨rfl, rfl⟩ := h
    exact ⟨rfl, fun _ => Finset.Subset.refl _, fun _ => Finset.Subset.refl _, rfl,
      fun _ => rfl, rfl, Nat.le_refl _, fun hb => Or.inl hb, id⟩

theorem sc_fold_spec {cfg : CluedoConfiguration} {sc : String} :
    ∀ (js : List Nat) (kb : KnowledgeBase) (b : Bool) {kb' : KnowledgeBase} {b' : Bool},
      sc ∈ cfg.cards → (∀ j ∈ js, j < kb.players.length) →
      js.foldl (scMark sc) (kb, b) = (kb', b') →
      kb'.players.length = kb.players.length ∧
      (∀ i, (getPlayer kb i).cards ⊆ (getPlayer kb' i).cards) ∧
      (∀ i, (getPlayer kb i).not_cards ⊆ (getPlayer kb' i).not_cards) ∧
      kb'.unknown_cards = kb.unknown_cards ∧
      (∀ t, kb'.solPoss t = kb.solPoss t) ∧
      kb'.constraints = kb.constraints ∧
      kbMeasure cfg kb' ≤ kbMeasure cfg kb ∧
      (b' = true → b = true ∨ kbMeasure cfg kb' < kbMeasure cfg kb) ∧
      (KBInv kb → KBInv kb')
  | [], kb, b, kb', b', _, _, h => by
    rw [List.foldl_nil, Prod.mk.injEq] at h
    obtain ⟨rfl, rfl⟩ := h
    exact ⟨rfl, fun _ => Finset.Subset.refl _, fun _ => Finset.Subset.refl _, rfl,
      fun _ => rfl, rfl, Nat.le_refl _, fun hb => Or.inl hb, id⟩
  | j :: js, kb, b, kb', b', hsc, hjs, h => by
    rw [List.foldl_cons] at h
    cases hstep : scMark sc (kb, b) j with
    | mk kb1 b1 =>
      rw [hstep] at h
      obtain ⟨hlen1, hcards1, hnots1, hunk1, hsol1, hcons1, hle1, hch1, hinv1⟩ :=
        scMark_spec hsc (hjs j (List.mem_cons_self j js)) hstep
      obtain ⟨hlen2, hcards2, hnots2, hunk2, hsol2, hcons2, hle2, hch2, hinv2⟩ :=
        sc_fold_spec js kb1 b1 hsc
          (fun j' hj' => hlen1 ▸ hjs j' (List.mem_cons_of_mem j hj')) h
      refine ⟨hlen2.trans hlen1, fun i => (hcards1 i).trans (hcards2 i),
        fun i => (hnots1 i).trans (hnots2 i), hunk2.trans hunk1,
        fun t => (hsol2 t).trans (hsol1 t), hcons2.trans hcons1, hle2.trans hle1, ?_,
        fun hI => hinv2 (hinv1 hI)⟩
      intro hb'
      rcases hch2 hb' with hb1 | hlt2
      · rcases hch1 hb1 with hb | hlt1
        · exact Or.inl hb
        · exact Or.inr (Nat.lt_of_le_of_lt hle2 hlt1)
      · exact Or.inr (Nat.lt_of_lt_of_le hlt2 hle1)

theorem scStep_spec {cfg : CluedoConfiguration} {kb : KnowledgeBase} {b : Bool}
    {ct : CardType} {kb' : KnowledgeBase} {b' : Bool}
    (hcat : SolInCatalog cfg kb) (h : scStep (kb, b) ct = (kb', b')) :
    kb'.players.length = kb.players.length ∧
    (∀ i, (getPlayer kb i).cards ⊆ (getPlayer kb' i).cards) ∧
    (∀ i, (getPlayer kb i).not_cards ⊆ (getPlayer kb' i).not_cards) ∧
    kb'.unknown_cards = kb.unknown_cards ∧
    (∀ t, kb'.solPoss t = kb.solPoss t) ∧
    kb'.constraints = kb.constraints ∧
    kbMeasure cfg kb' ≤ kbMeasure cfg kb ∧
    (b' = true → b = true ∨ kbMeasure cfg kb' < kbMeasure cfg kb) ∧
    (KBInv kb → KBInv kb') := by
  unfold scStep at h
  dsimp only at h
  split at h
  · next h1 =>
    obtain ⟨a, ha⟩ := Finset.card_eq_one.mp h1
    rw [ha] at h
    rw [Finset.sort_singleton] at h
    simp only [List.headD_cons] at h
    have hamem : a ∈ cfg.cards := by
      have : a ∈ kb.solPoss ct := ha ▸ Finset.mem_singleton_self a
      exact List.mem_toFinset.mp (hcat ct this)
    exact sc_fold_spec _ kb b hamem (fun j hj => List.mem_range.mp hj) h
  · rw [Prod.mk.injEq] at h
    obtain ⟨rfl, rfl⟩ := h
    exact ⟨rfl, fun _ => Finset.Subset.refl _, fun _ => Finset.Subset.refl _, rfl,
      fun _ => rfl, rfl, Nat.le_refl _, fun hb => Or.inl hb, id⟩

theorem deduceSolutionCards_spec {cfg : CluedoConfiguration} {kb kb' : KnowledgeBase}
    {b' : Bool} (hcat : SolInCatalog cfg kb) (h : deduceSolutionCards kb = (kb', b')) :
    kb'.players.length = kb.players.length ∧
    (∀ i, (getPlayer kb i).cards ⊆ (getPlayer kb' i).cards) ∧
    (∀ i, (getPlayer kb i).not_cards ⊆ (getPlayer kb' i).not_cards) ∧
    kb'.unknown_cards = kb.unknown_cards ∧
    (∀ t, kb'.solPoss t = kb.solPoss t) ∧
    kb'.constraints = kb.constraints ∧
    kbMeasure cfg kb' ≤ kbMeasure cfg kb ∧
    (b' = true → kbMeasure cfg kb' < kbMeasure cfg kb) ∧
    (KBInv kb → KBInv kb') := by
  unfold deduceSolutionCards at h
  simp only [List.foldl_cons, List.foldl_nil] at h
  cases hs1 : scStep (kb, false) CardType.suspect with
  | mk kb1 b1 =>
    rw [hs1] at h
    cases hs2 : scStep (kb1, b1) CardType.weapon with
    | mk kb2 b2 =>
      rw [hs2] at h
      obtain ⟨hlen1, hcards1, hnots1, hunk1, hsol1, hcons1, hle1, hch1, hinv1⟩ :=
        scStep_spec hcat hs1
      have hcat1 : SolInCatalog cfg kb1 := fun t => (hsol1 t).symm ▸ hcat t
      obtain ⟨hlen2, hcards2, hnots2, hunk2, hsol2, hcons2, hle2, hch2, hinv2⟩ :=
        scStep_spec hcat1 hs2
      have hcat2 : SolInCatalog cfg kb2 := fun t => (hsol2 t).symm ▸ hcat1 t
      obtain ⟨hlen3, hcards3, hnots3, hunk3, hsol3, hcons3, hle3, hch3, hinv3⟩ :=
        scStep_spec hcat2 h
      refine ⟨hlen3.trans (hlen2.trans hlen1),
        fun i => ((hcards1 i).trans (hcards2 i)).trans (hcards3 i),
        fun i => ((hnots1 i).trans (hnots2 i)).trans (hnots3 i),
        (hunk3.trans hunk2).trans hunk1,
        fun t => ((hsol3 t).trans (hsol2 t)).trans (hsol1 t),
        (hcons3.trans hcons2).trans hcons1,
        (hle3.trans hle2).trans hle1, ?_,
        fun hI => hinv3 (hinv2 (hinv1 hI))⟩
      intro hb'
      rcases hch3 hb' with hb2 | hlt3
      · rcases hch2 hb2 with hb1 | hlt2
        · rcases hch1 hb1 with hfalse | hlt1
          · cases hfalse
          · exact Nat.lt_of_le_of_lt (hle3.trans hle2) hlt1
        · exact Nat.lt_of_le_of_lt hle3 (Nat.lt_of_lt_of_le hlt2 hle1)
      · exact Nat.lt_of_lt_of_le hlt3 (hle2.trans hle1)

theorem StepOk_constraints (cfg : CluedoConfiguration) (kb : KnowledgeBase)
    (cs : List Constraint) : StepOk cfg kb { kb with constraints := cs } :=
  ⟨rfl, fun _ => Finset.Subset.refl _, fun _ => Finset.Subset.refl _,
    Finset.Subset.refl _, id, id⟩

theorem pcStep_spec {cfg : CluedoConfiguration} {kb : KnowledgeBase}
    {ncs : List Constraint} {b : Bool} {ct : Constraint} {kb' : KnowledgeBase}
    {ncs' : List Constraint} {b' : Bool}
    (h : pcStep cfg (kb, ncs, b) ct = .ok (kb', ncs', b')) :
    StepOk cfg kb kb' ∧
    kb'.constraints = kb.constraints ∧
    (∀ t, kb'.solPoss t ⊆ kb.solPoss t) ∧
    kbMeasure cfg kb' ≤ kbMeasure cfg kb ∧
    ncs'.length ≤ ncs.length + 1 ∧
    (b' = true → b = true ∨ ncs'.length ≤ ncs.length) ∧
    (∀ x ∈ ncs', x ∈ ncs ∨ x.playerIdx = ct.playerIdx) ∧
    (KBInv kb → ct.playerIdx < kb.players.length → KBInv kb') := by
  unfold pcStep at h
  dsimp only at h
  split at h
  · simp only [Except.ok.injEq, Prod.mk.injEq] at h
    obtain ⟨rfl, rfl, rfl⟩ := h
    exact ⟨StepOk.refl cfg kb, rfl, fun _ => Finset.Subset.refl _, Nat.le_refl _,
      Nat.le_succ _, fun hb => Or.inl hb, fun x hx => Or.inl hx, fun hI _ => hI⟩
  · split at h
    · next hres =>
      obtain ⟨a, ha⟩ := Finset.card_eq_one.mp hres
      rw [ha] at h
      rw [Finset.sort_singleton] at h
      simp only [List.headD_cons] at h
      have hamem : a ∈ (ct.narrow (getPlayer kb ct.playerIdx)).possible_cards :=
        ha ▸ Finset.mem_singleton_self a
      have hamight : (getPlayer kb ct.playerIdx).mightHaveCard a := by
        have := Finset.mem_filter.mp hamem
        exact this.2
      cases hr : recordHasCard cfg
          { kb with
            log := kb.log ++ [.mustHave (getPlayer kb ct.playerIdx).name a] }
          ct.playerIdx a with
      | error e =>
        rw [hr] at h
        simp [Bind.bind, Except.bind] at h
      | ok kb2 =>
        rw [hr] at h
        simp only [Bind.bind, Except.bind, Except.ok.injEq, Prod.mk.injEq] at h
        obtain ⟨rfl, rfl, rfl⟩ := h
        obtain ⟨hSO, _, hcons, hsol, hle, _⟩ := rhc_spec hr
        refine ⟨hSO, hcons, hsol, hle, Nat.le_succ _, fun _ => Or.inr (Nat.le_refl _),
          fun x hx => Or.inl hx, fun hI hidx => ?_⟩
        exact rhc_KBInv
          (show KBInv { kb with
            log := kb.log ++ [.mustHave (getPlayer kb ct.playerIdx).name a] } from hI)
          hidx hamight.2 hr
    · simp only [Except.ok.injEq, Prod.mk.injEq] at h
      obtain ⟨rfl, rfl, rfl⟩ := h
      refine ⟨StepOk.refl cfg kb, rfl, fun _ => Finset.Subset.refl _, Nat.le_refl _,
        by simp, fun hb => Or.inl hb, ?_, fun hI _ => hI⟩
      intro x hx
      rcases List.mem_append.mp hx with hx' | hx'
      · exact Or.inl hx'
      · rw [List.mem_singleton.mp hx']
        exact Or.inr rfl

theorem pc_fold_spec {cfg : CluedoConfiguration} :
    ∀ (cs : List Constraint) (kb : KnowledgeBase) (ncs : List Constraint) (b : Bool)
      {kb' : KnowledgeBase} {ncs' : List Constraint} {b' : Bool},
      cs.foldlM (pcStep cfg) (kb, ncs, b) = .ok (kb', ncs', b') →
      StepOk cfg kb kb' ∧
      kb'.constraints = kb.constraints ∧
      (∀ t, kb'.solPoss t ⊆ kb.solPoss t) ∧
      kbMeasure cfg kb' ≤ kbMeasure cfg kb ∧
      ncs'.length ≤ ncs.length + cs.length ∧
      (b' = true → b = true ∨ ncs'.length + 1 ≤ ncs.length + cs.length) ∧
      (∀ x ∈ ncs', x ∈ ncs ∨ ∃ c ∈ cs, x.playerIdx = c.playerIdx) ∧
      ((∀ c ∈ cs, c.playerIdx < kb.players.length) → KBInv kb → KBInv kb')
  | [], kb, ncs, b, kb', ncs', b', h => by
    simp only [List.foldlM_nil, pure, Except.pure, Except.ok.injEq, Prod.mk.injEq] at h
    obtain ⟨rfl, rfl, rfl⟩ := h
    exact ⟨StepOk.refl _ _, rfl, fun _ => Finset.Subset.refl _, Nat.le_refl _,
      by simp, fun hb => Or.inl hb, fun x hx => Or.inl hx, fun _ => id⟩
  | c :: cs, kb, ncs, b, kb', ncs', b', h => by
    rw [List.foldlM_cons] at h
    cases hstep : pcStep cfg (kb, ncs, b) c with
    | error e =>
      rw [hstep] at h
      simp [Bind.bind, Except.bind] at h
    | ok acc1 =>
      rw [hstep] at h
      simp only [Bind.bind, Except.bind] at h
      obtain ⟨kb1, ncs1, b1⟩ := acc1
      obtain ⟨hSO1, hcons1, hsol1, hle1, hlen1, hch1, hmem1, hinv1⟩ := pcStep_spec hstep
      obtain ⟨hSO2, hcons2, hsol2, hle2, hlen2, hch2, hmem2, hinv2⟩ :=
        pc_fold_spec cs kb1 ncs1 b1 h
      refine ⟨hSO1.trans hSO2, hcons2.trans hcons1,
        fun t => (hsol2 t).trans (hsol1 t), hle2.trans hle1, ?_, ?_, ?_, ?_⟩
      · calc ncs'.length ≤ ncs1.length + cs.length := hlen2
          _ ≤ (ncs.length + 1) + cs.length := Nat.add_le_add_right hlen1 _
          _ = ncs.length + (c :: cs).length := by simp [List.length_cons]; omega
      · intro hb'
        rcases hch2 hb' with hb1 | hlt2
        · rcases hch1 hb1 with hb | hle'
          · exact Or.inl hb
          · refine Or.inr ?_
            calc ncs'.length + 1 ≤ (ncs1.length + cs.length) + 1 :=
                Nat.add_le_add_right hlen2 _
              _ ≤ (ncs.length + cs.length) + 1 := by
                exact Nat.add_le_add_right (Nat.add_le_add_right hle' _) _
              _ = ncs.length + (c :: cs).length := by simp [List.length_cons]; omega
        · refine Or.inr ?_
          calc ncs'.length + 1 ≤ ncs1.length + cs.length := hlt2
            _ ≤ (ncs.length + 1) + cs.length := Nat.add_le_add_right hlen1 _
            _ = ncs.length + (c :: cs).length := by simp [List.length_cons]; omega
      · intro x hx
        rcases hmem2 x hx with hx1 | ⟨c', hc', he⟩
        · rcases hmem1 x hx1 with hxn | hxe
          · exact Or.inl hxn
          · exact Or.inr ⟨c, List.mem_cons_self c cs, hxe⟩
        · exact Or.inr ⟨c', List.mem_cons_of_mem c hc', he⟩
      · intro hguard hI
        refine hinv2 (fun c' hc' => ?_) (hinv1 hI (hguard c (List.mem_cons_self c cs)))
        rw [hSO1.1]
        exact hguard c' (List.mem_cons_of_mem c hc')

theorem propagateConstraints_spec {cfg : CluedoConfiguration} {kb kb' : KnowledgeBase}
    {b' : Bool} (h : propagateConstraints cfg kb = .ok (kb', b')) :
    StepOk cfg kb kb' ∧
    (∀ t, kb'.solPoss t ⊆ kb.solPoss t) ∧
    kbMeasure cfg kb' ≤ kbMeasure cfg kb ∧
    (b' = true → kbMeasure cfg kb' < kbMeasure cfg kb) ∧
    (KBInv kb → KBInv kb') := by
  unfold propagateConstraints at h
  cases hf : kb.constraints.foldlM (pcStep cfg) (kb, [], false) with
  | error e =>
    rw [hf] at h
    simp [Bind.bind, Except.bind] at h
  | ok acc =>
    rw [hf] at h
    obtain ⟨kbf, ncsf, bf⟩ := acc
    simp only [Bind.bind, Except.bind, Except.ok.injEq, Prod.mk.injEq] at h
    obtain ⟨rfl, rfl⟩ := h
    obtain ⟨hSO, hcons, hsol, hle, hlen, hch, hmem, hinv⟩ :=
      pc_fold_spec kb.constraints kb [] false hf
    have hrwu : rosterWeight cfg kbf.players + kbf.unknown_cards.card ≤
        rosterWeight cfg kb.players + kb.unknown_cards.card := by
      have := hle
      unfold kbMeasure at this
      rw [hcons] at this
      omega
    refine ⟨hSO.trans (StepOk_constraints cfg kbf ncsf), ?_, ?_, ?_, ?_⟩
    · intro t
      exact hsol t
    · unfold kbMeasure
      dsimp only
      have hlen' : ncsf.length ≤ kb.constraints.length := by simpa using hlen
      omega
    · intro hb'
      rcases hch hb' with hfalse | hlt
      · cases hfalse
      · unfold kbMeasure
        dsimp only
        have hlt' : ncsf.length + 1 ≤ kb.constraints.length := by simpa using hlt
        omega
    · intro hI
      have hkbf := hinv (fun c hc => hI.2.2 c hc) hI
      refine ⟨?_, ?_, ?_⟩
      · intro j
        exact hkbf.1 j
      · intro a c hac hc x hx
        exact hkbf.2.1 a c hac hc x hx
      · intro x hx
        dsimp only at hx
        rcases hmem x hx with hempty | ⟨c, hc, he⟩
        · cases hempty
        · dsimp only
          rw [hSO.1]
          exact he ▸ hI.2.2 c hc

theorem deducePass_spec {cfg : CluedoConfiguration} {kb kb' : KnowledgeBase} {ch : Bool}
    (hcat : SolInCatalog cfg kb) (h : deducePass cfg kb = .ok (kb', ch)) :
    StepOk cfg kb kb' ∧
    kbMeasure cfg kb' ≤ kbMeasure cfg kb ∧
    (ch = true → kbMeasure cfg kb' < kbMeasure cfg kb) ∧
    (SolMemInv cfg kb → ∀ t, kb'.solPoss t ⊆ kb.solPoss t) ∧
    (KBInv kb → KBInv kb') := by
  unfold deducePass at h
  cases h1 : deduceUniqueOwner cfg kb with
  | error e =>
    rw [h1] at h
    simp [Bind.bind, Except.bind] at h
  | ok acc1 =>
    rw [h1] at h
    obtain ⟨kb1, c1⟩ := acc1
    simp only [Bind.bind, Except.bind] at h
    cases hs : deduceSolutionCards kb1 with
    | mk kb2 c2 =>
      rw [hs] at h
      dsimp only at h
      cases hp : propagateConstraints cfg kb2 with
      | error e =>
        rw [hp] at h
        simp [Bind.bind, Except.bind] at h
      | ok acc3 =>
        rw [hp] at h
        obtain ⟨kb3, c3⟩ := acc3
        simp only [Bind.bind, Except.bind, Except.ok.injEq, Prod.mk.injEq] at h
        obtain ⟨rfl, rfl⟩ := h
        obtain ⟨hSO1, hcons1, hle1, hch1, hshr1, hinv1⟩ := deduceUniqueOwner_spec h1
        have hcat1 : SolInCatalog cfg kb1 := hSO1.2.2.2.2.1 hcat
        obtain ⟨hlen2, hcards2, hnots2, hunk2, hsol2, hcons2, hle2, hch2, hinv2⟩ :=
          deduceSolutionCards_spec hcat1 hs
        have hSO2 : StepOk cfg kb1 kb2 :=
          ⟨hlen2, hcards2, hnots2, hunk2 ▸ Finset.Subset.refl _,
            fun hc t => (hsol2 t).symm ▸ hc t,
            fun hM t c hgt hu hct => (hsol2 t).symm ▸
              hM t c ((hsol2 t) ▸ hgt) (hunk2 ▸ hu) hct⟩
        obtain ⟨hSO3, hsol3, hle3, hch3, hinv3⟩ := propagateConstraints_spec hp
        refine ⟨(hSO1.trans hSO2).trans hSO3, (hle3.trans hle2).trans hle1, ?_, ?_,
          fun hI => hinv3 (hinv2 (hinv1 hI))⟩
        · intro hch
          rcases Bool.or_eq_true_iff.mp hch with hch' | hc3
          · rcases Bool.or_eq_true_iff.mp hch' with hc1 | hc2
            · exact Nat.lt_of_le_of_lt (hle3.trans hle2) (hch1 hc1)
            · exact Nat.lt_of_le_of_lt hle3 (Nat.lt_of_lt_of_le (hch2 hc2) hle1)
          · exact Nat.lt_of_lt_of_le (hch3 hc3) (hle2.trans hle1)
        · intro hM t
          refine (hsol3 t).trans ?_
          rw [hsol2 t]
          exact hshr1 hM t

theorem deduceAux_ok_spec {cfg : CluedoConfiguration} :
    ∀ (n : Nat) (kb : KnowledgeBase) {kb' : KnowledgeBase} {b : Bool},
      SolInCatalog cfg kb → deduceAux cfg n kb = some (.ok (kb', b)) →
      StepOk cfg kb kb' ∧
      (SolMemInv cfg kb → ∀ t, kb'.solPoss t ⊆ kb.solPoss t) ∧
      (KBInv kb → KBInv kb')
  | 0, kb, kb', b, _, h => by cases h
  | n + 1, kb, kb', b, hcat, h => by
    unfold deduceAux at h
    cases hpass : deducePass cfg kb with
    | error e =>
      rw [hpass] at h
      cases h
    | ok acc =>
      rw [hpass] at h
      obtain ⟨kb1, c1⟩ := acc
      cases c1 with
      | false =>
        simp only [Option.some.injEq, Except.ok.injEq, Prod.mk.injEq] at h
        obtain ⟨rfl, rfl⟩ := h
        obtain ⟨hSO, _, _, hshr, hinv⟩ := deducePass_spec hcat hpass
        exact ⟨hSO, hshr, hinv⟩
      | true =>
        obtain ⟨hSO1, _, _, hshr1, hinv1⟩ := deducePass_spec hcat hpass
        dsimp only at h
        cases hrec : deduceAux cfg n kb1 with
        | none =>
          rw [hrec] at h
          cases h
        | some r =>
          rw [hrec] at h
          cases r with
          | error e =>
            simp only [Option.some.injEq] at h
            cases h
          | ok acc2 =>
            obtain ⟨kb2, b2⟩ := acc2
            simp only [Option.some.injEq, Except.ok.injEq, Prod.mk.injEq] at h
            obtain ⟨rfl, rfl⟩ := h
            obtain ⟨hSO2, hshr2, hinv2⟩ :=
              deduceAux_ok_spec n kb1 (hSO1.2.2.2.2.1 hcat) hrec
            exact ⟨hSO1.trans hSO2, fun hM t =>
                (hshr2 (hSO1.2.2.2.2.2 hM) t).trans (hshr1 hM t),
              fun hI => hinv2 (hinv1 hI)⟩

theorem deduceAux_isSome {cfg : CluedoConfiguration} :
    ∀ (n : Nat) (kb : KnowledgeBase), SolInCatalog cfg kb → kbMeasure cfg kb < n →
      (deduceAux cfg n kb).isSome
  | 0, kb, _, hn => by cases hn
  | n + 1, kb, hcat, hn => by
    unfold deduceAux
    cases hpass : deducePass cfg kb with
    | error e => rfl
    | ok acc =>
      obtain ⟨kb1, c1⟩ := acc
      cases c1 with
      | false => rfl
      | true =>
        obtain ⟨hSO, _, hlt, _, _⟩ := deducePass_spec hcat hpass
        have hn1 : kbMeasure cfg kb1 < n :=
          Nat.lt_of_lt_of_le (hlt rfl) (Nat.lt_succ_iff.mp hn)
        have hsome := deduceAux_isSome n kb1 (hSO.2.2.2.2.1 hcat) hn1
        dsimp only
        cases hrec : deduceAux cfg n kb1 with
        | none => rw [hrec] at hsome; cases hsome
        | some r => cases r with
          | error e => rfl
          | ok acc2 => obtain ⟨kb2, b2⟩ := acc2; rfl

theorem recordDoesNotHave_spec (cfg : CluedoConfiguration) (kb : KnowledgeBase) (i : Nat)
    (card : String) :
    StepOk cfg kb (recordDoesNotHave kb i card) ∧
    (recordDoesNotHave kb i card).unknown_cards = kb.unknown_cards ∧
    (∀ t, (recordDoesNotHave kb i card).solPoss t = kb.solPoss t) ∧
    (recordDoesNotHave kb i card).constraints = kb.constraints ∧
    (KBInv kb → card ∉ (getPlayer kb i).cards → KBInv (recordDoesNotHave kb i card)) := by
  have hget : ∀ j, getPlayer (recordDoesNotHave kb i card) j =
      if j = i ∧ i < kb.players.length then (getPlayer kb i).markNotCard card
      else getPlayer kb j := by
    intro j
    unfold recordDoesNotHave getPlayer
    dsimp only
    split
    · next hj =>
      obtain ⟨rfl, hlt⟩ := hj
      exact getD_modifyAt_self _ _ hlt
    · next hj =>
      by_cases hji : j = i
      · subst hji
        have hge : kb.players.length ≤ j := by
          rcases Nat.lt_or_ge j kb.players.length with hlt | hge
          · exact absurd ⟨rfl, hlt⟩ hj
          · exact hge
        rw [List.getD_eq_default _ _ (by rw [modifyAt_length]; exact hge),
          List.getD_eq_default _ _ hge]
      · exact getD_modifyAt_ne _ _ hji
  have hlen : (recordDoesNotHave kb i card).players.length = kb.players.length :=
    modifyAt_length _ _ _
  refine ⟨⟨hlen, ?_, ?_, Finset.Subset.refl _, id, id⟩, rfl, fun _ => rfl, rfl, ?_⟩
  · intro j
    rw [hget j]
    split
    · next hj => obtain ⟨rfl, _⟩ := hj; rw [markNot_cards]
    · exact Finset.Subset.refl _
  · intro j
    rw [hget j]
    split
    · next hj =>
      obtain ⟨rfl, _⟩ := hj
      rw [markNot_not_cards]
      exact Finset.subset_insert _ _
    · exact Finset.Subset.refl _
  · intro ⟨hD, hH, hC⟩ hnc
    refine ⟨?_, ?_, ?_⟩
    · intro j
      rw [hget j]
      split
      · next hj =>
        obtain ⟨rfl, _⟩ := hj
        rw [markNot_cards, markNot_not_cards]
        exact disjoint_insert_not (hD j) hnc
      · exact hD j
    · intro a c hac hc x hx
      rw [hlen] at hc
      rw [hget a] at hx
      rw [hget c]
      have hxa : x ∈ (getPlayer kb a).cards := by
        revert hx
        split
        · next hj => obtain ⟨rfl, _⟩ := hj; rw [markNot_cards]; exact id
        · exact id
      have hold := hH a c hac hc x hxa
      split
      · next hj =>
        obtain ⟨rfl, _⟩ := hj
        rw [markNot_not_cards]
        exact Finset.mem_insert_of_mem hold
      · exact hold
    · intro x hx
      rw [hlen]
      exact hC x hx

theorem noOneShowedStep_spec {cfg : CluedoConfiguration} {yourIdx : Nat}
    {kb : KnowledgeBase} {card : String} {kb' : KnowledgeBase}
    (h : noOneShowedStep cfg yourIdx kb card = .ok kb') :
    StepOk cfg kb kb' ∧
    kb'.players = kb.players ∧
    kb'.constraints = kb.constraints ∧
    (KBInv kb → KBInv kb') := by
  unfold noOneShowedStep at h
  split at h
  · injection h with h
    subst h
    exact ⟨StepOk.refl _ _, rfl, rfl, id⟩
  · cases hct : getCardType cfg card with
    | error e =>
      rw [hct] at h
      simp [Bind.bind, Except.bind] at h
    | ok ct =>
      rw [hct] at h
      simp only [Bind.bind, Except.bind, Except.ok.injEq] at h
      subst h
      obtain ⟨hSO, _, hcons, _, _, _, hinv⟩ := @collapse_spec cfg kb card ct hct
      exact ⟨hSO, collapseState_players kb card ct, hcons, hinv⟩

theorem noOne_fold_spec {cfg : CluedoConfiguration} {yourIdx : Nat} :
    ∀ (cards : List String) (kb : KnowledgeBase) {kb' : KnowledgeBase},
      cards.foldlM (noOneShowedStep cfg yourIdx) kb = .ok kb' →
      StepOk cfg kb kb' ∧
      kb'.players = kb.players ∧
      kb'.constraints = kb.constraints ∧
      (KBInv kb → KBInv kb')
  | [], kb, kb', h => by
    simp only [List.foldlM_nil, pure, Except.pure, Except.ok.injEq] at h
    subst h
    exact ⟨StepOk.refl _ _, rfl, rfl, id⟩
  | c :: cs, kb, kb', h => by
    rw [List.foldlM_cons] at h
    cases hstep : noOneShowedStep cfg yourIdx kb c with
    | error e =>
      rw [hstep] at h
      simp [Bind.bind, Except.bind] at h
    | ok kb1 =>
      rw [hstep] at h
      simp only [Bind.bind, Except.bind] at h
      obtain ⟨hSO1, hp1, hc1, hi1⟩ := noOneShowedStep_spec hstep
      obtain ⟨hSO2, hp2, hc2, hi2⟩ := noOne_fold_spec cs kb1 h
      exact ⟨hSO1.trans hSO2, hp2.trans hp1, hc2.trans hc1, fun hI => hi2 (hi1 hI)⟩

theorem recordNoOneShowed_spec {cfg : CluedoConfiguration} {kb : KnowledgeBase}
    {sugg : Suggestion} {yourIdx : Nat} {kb' : KnowledgeBase}
    (h : recordNoOneShowed cfg kb sugg yourIdx = .ok kb') :
    StepOk cfg kb kb' ∧
    kb'.players = kb.players ∧
    kb'.constraints = kb.constraints ∧
    (KBInv kb → KBInv kb') :=
  noOne_fold_spec _ kb h

theorem recordShowedOneOf_spec {cfg : CluedoConfiguration} {kb : KnowledgeBase} {i : Nat}
    {possible : Finset String} {kb' : KnowledgeBase}
    (h : recordShowedOneOf cfg kb i possible = .ok kb') :
    StepOk cfg kb kb' ∧
    (∀ t, kb'.solPoss t ⊆ kb.solPoss t) ∧
    (i < kb.players.length → KBInv kb → KBInv kb') := by
  unfold recordShowedOneOf at h
  dsimp only at h
  split at h
  · injection h with h
    subst h
    exact ⟨StepOk.refl _ _, fun _ => Finset.Subset.refl _, fun _ => id⟩
  · split at h
    · next hone =>
      obtain ⟨a, ha⟩ := Finset.card_eq_one.mp hone
      rw [ha] at h
      rw [Finset.sort_singleton] at h
      simp only [List.headD_cons] at h
      have hamight : (getPlayer kb i).mightHaveCard a := by
        have : a ∈ possible.filter (fun c => (getPlayer kb i).mightHaveCard c) :=
          ha ▸ Finset.mem_singleton_self a
        exact (Finset.mem_filter.mp this).2
      obtain ⟨hSO, _, _, hsol, _, _⟩ := rhc_spec h
      exact ⟨hSO, hsol, fun hlen hI => rhc_KBInv hI hlen hamight.2 h⟩
    · injection h with h
      subst h
      refine ⟨⟨rfl, fun _ => Finset.Subset.refl _, fun _ => Finset.Subset.refl _,
        Finset.Subset.refl _, id, id⟩, fun _ => Finset.Subset.refl _, ?_⟩
      intro hlen ⟨hD, hH, hC⟩
      refine ⟨hD, hH, ?_⟩
      intro x hx
      dsimp only at hx
      rcases List.mem_append.mp hx with hx' | hx'
      · exact hC x hx'
      · rw [List.mem_singleton.mp hx']
        exact hlen

theorem getCardType_ok_elim {cfg : CluedoConfiguration} {card : String} {ct : CardType}
    (h : getCardType cfg card = .ok ct) :
    (ct = .suspect ∧ card ∈ cfg.suspects) ∨
    (ct = .weapon ∧ card ∈ cfg.weapons) ∨
    (ct = .location ∧ card ∈ cfg.locations) := by
  unfold getCardType at h
  split at h
  · next hs => injection h with h; exact Or.inl ⟨h.symm, hs⟩
  · split at h
    · next hw => injection h with h; exact Or.inr (Or.inl ⟨h.symm, hw⟩)
    · split at h
      · next hl => injection h with h; exact Or.inr (Or.inr ⟨h.symm, hl⟩)
      · cases h

theorem getPlayer_initKB (cfg : CluedoConfiguration) (names : List String) (i : Nat) :
    (getPlayer (initKB cfg names) i).cards = ∅ ∧
    (getPlayer (initKB cfg names) i).not_cards = ∅ := by
  unfold getPlayer initKB
  dsimp only
  induction names generalizing i with
  | nil => simp [dfltPlayer]
  | cons n rest ih =>
    cases i with
    | zero => exact ⟨rfl, rfl⟩
    | succ m => simpa using ih m

theorem initKB_KBInv (cfg : CluedoConfiguration) (names : List String) :
    KBInv (initKB cfg names) := by
  refine ⟨?_, ?_, ?_⟩
  · intro i
    rw [(getPlayer_initKB cfg names i).1]
    simp
  · intro a b _ _ c hc
    rw [(getPlayer_initKB cfg names a).1] at hc
    simp at hc
  · intro x hx
    simp [initKB] at hx

theorem initKB_SolInCatalog (cfg : CluedoConfiguration) (names : List String) :
    SolInCatalog cfg (initKB cfg names) := by
  intro t c hc
  rw [List.mem_toFinset]
  unfold CluedoConfiguration.cards
  cases t <;>
    simp only [initKB, KnowledgeBase.solPoss, List.mem_toFinset] at hc <;>
    simp [hc]

theorem initKB_SolMemInv (cfg : CluedoConfiguration) (names : List String) :
    SolMemInv cfg (initKB cfg names) := by
  intro t c _ _ hct
  rcases getCardType_ok_elim hct with ⟨rfl, hm⟩ | ⟨rfl, hm⟩ | ⟨rfl, hm⟩ <;>
    simp [initKB, KnowledgeBase.solPoss, List.mem_toFinset, hm]

theorem applyEvent_spec {cfg : CluedoConfiguration} {kb : KnowledgeBase} {e : Event}
    {kb' : KnowledgeBase} (hcat : SolInCatalog cfg kb)
    (h : applyEvent cfg e kb = some (.ok kb')) :
    StepOk cfg kb kb' ∧
    (SolMemInv cfg kb → (∀ sugg yi, e ≠ .noOneShowed sugg yi) →
      ∀ t, kb'.solPoss t ⊆ kb.solPoss t) ∧
    (eventOkB kb e = true → KBInv kb → KBInv kb') := by
  cases e with
  | hasCard i card =>
    simp only [applyEvent, Option.some.injEq] at h
    obtain ⟨hSO, _, _, hsol, _, _⟩ := rhc_spec h
    refine ⟨hSO, fun _ _ => hsol, fun hok hI => ?_⟩
    simp only [eventOkB, Bool.and_eq_true, decide_eq_true_eq] at hok
    exact rhc_KBInv hI hok.1 hok.2 h
  | doesNotHave i card =>
    simp only [applyEvent, Option.some.injEq, Except.ok.injEq] at h
    subst h
    obtain ⟨hSO, _, hsol, _, hinv⟩ := recordDoesNotHave_spec cfg kb i card
    refine ⟨hSO, fun _ _ t => (hsol t).symm ▸ Finset.Subset.refl _, fun hok hI => ?_⟩
    simp only [eventOkB, decide_eq_true_eq] at hok
    exact hinv hI hok
  | showedOneOf i possible =>
    simp only [applyEvent, Option.some.injEq] at h
    obtain ⟨hSO, hsol, hinv⟩ := recordShowedOneOf_spec h
    refine ⟨hSO, fun _ _ => hsol, fun hok hI => ?_⟩
    simp only [eventOkB, decide_eq_true_eq] at hok
    exact hinv hok hI
  | noOneShowed sugg yi =>
    simp only [applyEvent, Option.some.injEq] at h
    obtain ⟨hSO, _, _, hinv⟩ := recordNoOneShowed_spec h
    exact ⟨hSO, fun _ hne => absurd rfl (hne sugg yi), fun _ hI => hinv hI⟩
  | deduceEv =>
    simp only [applyEvent] at h
    cases hd : deduce cfg kb with
    | none =>
      rw [hd] at h
      cases h
    | some r =>
      rw [hd] at h
      cases r with
      | error e =>
        simp only [Option.map, Except.map, Option.some.injEq] at h
        cases h
      | ok acc =>
        obtain ⟨kb2, b⟩ := acc
        simp only [Option.map, Except.map, Option.some.injEq, Except.ok.injEq] at h
        subst h
        unfold deduce at hd
        obtain ⟨hSO, hshr, hinv⟩ := deduceAux_ok_spec _ kb hcat hd
        exact ⟨hSO, fun hM _ => hshr hM, fun _ hI => hinv hI⟩

theorem replay_preserves {cfg : CluedoConfiguration} :
    ∀ (es : List Event) (kb : KnowledgeBase) {kb' : KnowledgeBase},
      SolInCatalog cfg kb → SolMemInv cfg kb →
      replay cfg es kb = some (.ok kb') →
      SolInCatalog cfg kb' ∧ SolMemInv cfg kb'
  | [], kb, kb', hcat, hM, h => by
    simp only [replay, Option.some.injEq, Except.ok.injEq] at h
    subst h
    exact ⟨hcat, hM⟩
  | e :: es, kb, kb', hcat, hM, h => by
    rw [replay] at h
    cases happ : applyEvent cfg e kb with
    | none =>
      rw [happ] at h
      cases h
    | some r =>
      rw [happ] at h
      cases r with
      | error err => simp at h
      | ok kb1 =>
        obtain ⟨hSO, _, _⟩ := applyEvent_spec hcat happ
        exact replay_preserves es kb1 (hSO.2.2.2.2.1 hcat) (hSO.2.2.2.2.2 hM) h

theorem replay_KBInv {cfg : CluedoConfiguration} :
    ∀ (es : List Event) (kb : KnowledgeBase) {kb' : KnowledgeBase},
      SolInCatalog cfg kb → KBInv kb → goodTrace cfg kb es = true →
      replay cfg es kb = some (.ok kb') → KBInv kb'
  | [], kb, kb', _, hI, _, h => by
    simp only [replay, Option.some.injEq, Except.ok.injEq] at h
    subst h
    exact hI
  | e :: es, kb, kb', hcat, hI, hg, h => by
    rw [replay] at h
    rw [goodTrace] at hg
    cases happ : applyEvent cfg e kb with
    | none =>
      rw [happ] at h
      cases h
    | some r =>
      rw [happ] at h
      cases r with
      | error err => simp at h
      | ok kb1 =>
        rw [happ] at hg
        simp only [Bool.and_eq_true] at hg
        obtain ⟨hSO, _, hinv⟩ := applyEvent_spec hcat happ
        exact replay_KBInv es kb1 (hSO.2.2.2.2.1 hcat) (hinv hg.1 hI) hg.2 h

theorem recordDoesNotHave_fields (kb : KnowledgeBase) (i : Nat) (card : String)
    (hi : i < kb.players.length) :
    (getPlayer (recordDoesNotHave kb i card) i).not_cards =
      insert card (getPlayer kb i).not_cards ∧
    (getPlayer (recordDoesNotHave kb i card) i).cards = (getPlayer kb i).cards ∧
    (∀ j, j ≠ i → getPlayer (recordDoesNotHave kb i card) j = getPlayer kb j) := by
  refine ⟨?_, ?_, ?_⟩
  · unfold recordDoesNotHave getPlayer
    dsimp only
    rw [getD_modifyAt_self _ _ hi]
    rfl
  · unfold recordDoesNotHave getPlayer
    dsimp only
    rw [getD_modifyAt_self _ _ hi]
    rfl
  · intro j hji
    unfold recordDoesNotHave getPlayer
    dsimp only
    exact getD_modifyAt_ne _ _ hji

/-- C3: `record_has_card(player, card)` contract: if the player already holds
the card the whole knowledge base is unchanged (hence calling it twice equals
calling it once); otherwise (for a card of the catalog) it simultaneously adds
the card to the player's holds, removes it from `unknown_cards`, adds it to
every other player's excluded set, and removes it from its category's Solution
Candidate Set, leaving constraints untouched. -/
theorem C3_record_has_card_contract (cfg : CluedoConfiguration) (kb : KnowledgeBase)
    (i : Nat) (card : String) (hi : i < kb.players.length) :
    (card ∈ (getPlayer kb i).cards → recordHasCard cfg kb i card = .ok kb) ∧
    (card ∉ (getPlayer kb i).cards → card ∈ cfg.cards →
      ∃ ct kb', getCardType cfg card = .ok ct ∧
        recordHasCard cfg kb i card = .ok kb' ∧
        (getPlayer kb' i).cards = insert card (getPlayer kb i).cards ∧
        (getPlayer kb' i).not_cards = (getPlayer kb i).not_cards ∧
        (∀ j, j ≠ i → j < kb.players.length →
          getPlayer kb' j = (getPlayer kb j).markNotCard card) ∧
        kb'.unknown_cards = kb.unknown_cards.erase card ∧
        kb'.solPoss ct = (kb.solPoss ct).erase card ∧
        (∀ t, t ≠ ct → kb'.solPoss t = kb.solPoss t) ∧
        kb'.constraints = kb.constraints) ∧
    (∀ kb', recordHasCard cfg kb i card = .ok kb' →
      recordHasCard cfg kb' i card = .ok kb') := by
  refine ⟨fun hm => recordHasCard_mem hm, fun hm hc => ?_, fun kb' h => ?_⟩
  · obtain ⟨ct, hct⟩ := getCardType_of_mem hc
    refine ⟨ct, rhcState kb i card ct, hct, recordHasCard_not_mem hm hc hct, ?_, ?_,
      ?_, rhcState_unknown kb i card ct, ?_, ?_, rhcState_constraints kb i card ct⟩
    · rw [getPlayer_rhcState_self card ct hi]
    · rw [getPlayer_rhcState_self card ct hi]
    · intro j hji hj
      exact getPlayer_rhcState_ne card ct hji hj
    · rw [rhcState_solPoss, if_pos rfl]
    · intro t ht
      rw [rhcState_solPoss, if_neg ht]
  · rcases recordHasCard_ok_cases h with ⟨hm, rfl⟩ | ⟨hm, hc, ct, hct, rfl⟩
    · exact h
    · apply recordHasCard_mem
      rw [getPlayer_rhcState_self card ct hi]
      exact Finset.mem_insert_self _ _

/-- Witness for C3 at a concrete input: player 0 of `heldKB` already holds
`s1`, so recording it again is a no-op. -/
theorem C3_record_has_card_contract_witness :
    recordHasCard tinyCfg heldKB 0 "s1" = .ok heldKB :=
  (C3_record_has_card_contract tinyCfg heldKB 0 "s1" (by decide)).1 (by decide)

/-- C8: the `deduce()` fixed-point loop terminates: with fuel `kbMeasure + 1`
the loop reaches a pass with no change (or an error) for every state whose
Solution Candidate Sets lie inside the catalog. -/
theorem C8_deduce_terminates (cfg : CluedoConfiguration) (kb : KnowledgeBase)
    (hcat : SolInCatalog cfg kb) : (deduce cfg kb).isSome :=
  deduceAux_isSome _ kb hcat (Nat.lt_succ_self _)

/-- Witness for C8 on the concrete fresh two-player base. -/
theorem C8_deduce_terminates_witness :
    SolInCatalog tinyCfg tinyKB ∧ (deduce tinyCfg tinyKB).isSome :=
  ⟨initKB_SolInCatalog tinyCfg ["A", "B"],
    C8_deduce_terminates tinyCfg tinyKB (initKB_SolInCatalog tinyCfg ["A", "B"])⟩

/-- Counterexample to C2 as stated: player 0 of `heldKB` holds `s1`, yet
`record_does_not_have` still adds `s1` to the excluded set, so the sets are
not identical before and after the call. -/
theorem C2_counterexample :
    "s1" ∈ (getPlayer heldKB 0).cards ∧
    "s1" ∉ (getPlayer heldKB 0).not_cards ∧
    "s1" ∈ (getPlayer (recordDoesNotHave heldKB 0 "s1") 0).not_cards := by
  decide

/-- C2 amended: excluding a held card is not a no-op: `record_does_not_have`
unconditionally inserts the card into the player's excluded set (the holds set
and all other state are unchanged, and no error is raised — the function is
total). -/
theorem C2_exclude_held_card (kb : KnowledgeBase) (i : Nat) (card : String)
    (hi : i < kb.players.length) :
    (getPlayer (recordDoesNotHave kb i card) i).not_cards =
      insert card (getPlayer kb i).not_cards ∧
    (getPlayer (recordDoesNotHave kb i card) i).cards = (getPlayer kb i).cards ∧
    (∀ j, j ≠ i → getPlayer (recordDoesNotHave kb i card) j = getPlayer kb j) ∧
    (recordDoesNotHave kb i card).unknown_cards = kb.unknown_cards ∧
    (∀ t, (recordDoesNotHave kb i card).solPoss t = kb.solPoss t) ∧
    (recordDoesNotHave kb i card).constraints = kb.constraints := by
  obtain ⟨h1, h2, h3⟩ := recordDoesNotHave_fields kb i card hi
  exact ⟨h1, h2, h3, rfl, fun _ => rfl, rfl⟩

/-- Witness for the amended C2 at the concrete held card. -/
theorem C2_exclude_held_card_witness :
    (getPlayer (recordDoesNotHave heldKB 0 "s1") 0).not_cards =
      insert "s1" (getPlayer heldKB 0).not_cards :=
  (C2_exclude_held_card heldKB 0 "s1" (by decide)).1

/-- C10: `record_does_not_have` performs no catalog validation and never
raises — the event always applies successfully, simply inserting the card into
the excluded set, for any string whatsoever; by contrast `add_card` raises
`ValueError` for a card outside the catalog. -/
theorem C10_record_does_not_have_never_raises (cfg : CluedoConfiguration)
    (kb : KnowledgeBase) (i : Nat) (card : String) (p : Player)
    (hcat : card ∉ cfg.cards) :
    applyEvent cfg (.doesNotHave i card) kb =
      some (.ok (recordDoesNotHave kb i card)) ∧
    (i < kb.players.length →
      (getPlayer (recordDoesNotHave kb i card) i).not_cards =
        insert card (getPlayer kb i).not_cards) ∧
    p.addCard cfg card = .error (.valueError "Not a valid card") := by
  refine ⟨rfl, fun hi => (recordDoesNotHave_fields kb i card hi).1, ?_⟩
  unfold Player.addCard
  rw [if_neg hcat]

/-- Witness for C10 at a string outside the catalog. -/
theorem C10_record_does_not_have_never_raises_witness :
    ("bogus" ∉ tinyCfg.cards) ∧
    applyEvent tinyCfg (.doesNotHave 0 "bogus") tinyKB =
      some (.ok (recordDoesNotHave tinyKB 0 "bogus")) ∧
    Player.addCard tinyCfg dfltPlayer "bogus" =
      .error (.valueError "Not a valid card") := by
  refine ⟨by decide, ?_, ?_⟩
  · exact (C10_record_does_not_have_never_raises tinyCfg tinyKB 0 "bogus" dfltPlayer
      (by decide)).1
  · exact (C10_record_does_not_have_never_raises tinyCfg tinyKB 0 "bogus" dfltPlayer
      (by decide)).2.2

/-- Counterexample to C1 as stated: after the event sequence "player 0 holds
s1; player 0 does not have s1" the holds and excluded sets of player 0 both
contain `s1`, so they are not disjoint. -/
theorem C1_counterexample :
    replay tinyCfg [.hasCard 0 "s1", .doesNotHave 0 "s1"] tinyKB =
      some (.ok (replayOkD tinyCfg [.hasCard 0 "s1", .doesNotHave 0 "s1"] tinyKB)) ∧
    "s1" ∈ (getPlayer (replayOkD tinyCfg [.hasCard 0 "s1", .doesNotHave 0 "s1"] tinyKB)
      0).cards ∧
    "s1" ∈ (getPlayer (replayOkD tinyCfg [.hasCard 0 "s1", .doesNotHave 0 "s1"] tinyKB)
      0).not_cards := by
  decide

/-- C1 amended: disjointness of every player's holds and excluded sets is an
invariant of every event sequence from a fresh knowledge base in which each
positive fact names a roster player and a card not already excluded for them,
and each negative fact names a card not already held (the `goodTrace` guard);
without that guard a single `record_does_not_have` on a held card breaks it. -/
theorem C1_disjointness_guarded (cfg : CluedoConfiguration) (names : List String)
    (es : List Event) (kb' : KnowledgeBase)
    (hg : goodTrace cfg (initKB cfg names) es = true)
    (hr : replay cfg es (initKB cfg names) = some (.ok kb')) :
    ∀ i, (getPlayer kb' i).cards ∩ (getPlayer kb' i).not_cards = ∅ :=
  (replay_KBInv es (initKB cfg names) (initKB_SolInCatalog cfg names)
    (initKB_KBInv cfg names) hg hr).1

/-- Witness for the amended C1 on a concrete guarded trace. -/
theorem C1_disjointness_guarded_witness :
    goodTrace tinyCfg tinyKB [.hasCard 0 "s1", .doesNotHave 1 "w1"] = true ∧
    replay tinyCfg [.hasCard 0 "s1", .doesNotHave 1 "w1"] tinyKB =
      some (.ok (replayOkD tinyCfg [.hasCard 0 "s1", .doesNotHave 1 "w1"]
        tinyKB)) ∧
    (getPlayer (replayOkD tinyCfg [.hasCard 0 "s1", .doesNotHave 1 "w1"]
        tinyKB) 0).cards ∩
      (getPlayer (replayOkD tinyCfg [.hasCard 0 "s1", .doesNotHave 1 "w1"]
        tinyKB) 0).not_cards = ∅ :=
  ⟨by decide, by decide,
    C1_disjointness_guarded tinyCfg ["A", "B"]
      [.hasCard 0 "s1", .doesNotHave 1 "w1"] _ (by decide) (by decide) 0⟩

/-- Counterexample to C4 as stated: `s1` is removed from the suspect Solution
Candidate Set by `record_has_card`, yet a later `record_no_one_showed` puts it
back. -/
theorem C4_counterexample :
    replay tinyCfg [.hasCard 0 "s1"] tinyKB =
      some (.ok (replayOkD tinyCfg [.hasCard 0 "s1"] tinyKB)) ∧
    "s1" ∉ (replayOkD tinyCfg [.hasCard 0 "s1"] tinyKB).sol_suspect ∧
    replay tinyCfg [.hasCard 0 "s1", .noOneShowed ⟨"s1", "w1", "l1"⟩ 1] tinyKB =
      some (.ok (replayOkD tinyCfg [.hasCard 0 "s1", .noOneShowed ⟨"s1", "w1", "l1"⟩ 1]
        tinyKB)) ∧
    "s1" ∈ (replayOkD tinyCfg [.hasCard 0 "s1", .noOneShowed ⟨"s1", "w1", "l1"⟩ 1]
      tinyKB).sol_suspect := by
  decide

/-- C4 amended: at every state reachable from a fresh knowledge base, one more
event only grows each player's holds and excluded sets and only shrinks
`unknown_cards`; the Solution Candidate Sets also only shrink for every
operation except `record_no_one_showed`, which may re-admit a card removed
earlier (when a suggested card is already confirmed in a hand). -/
theorem C4_monotonicity (cfg : CluedoConfiguration) (names : List String)
    (es : List Event) (e : Event) (kb1 kb2 : KnowledgeBase)
    (h1 : replay cfg es (initKB cfg names) = some (.ok kb1))
    (h2 : applyEvent cfg e kb1 = some (.ok kb2)) :
    (∀ i, (getPlayer kb1 i).cards ⊆ (getPlayer kb2 i).cards) ∧
    (∀ i, (getPlayer kb1 i).not_cards ⊆ (getPlayer kb2 i).not_cards) ∧
    kb2.unknown_cards ⊆ kb1.unknown_cards ∧
    ((∀ sugg yi, e ≠ .noOneShowed sugg yi) → ∀ t, kb2.solPoss t ⊆ kb1.solPoss t) := by
  obtain ⟨hcat1, hM1⟩ := replay_preserves es (initKB cfg names)
    (initKB_SolInCatalog cfg names) (initKB_SolMemInv cfg names) h1
  obtain ⟨hSO, hshr, _⟩ := applyEvent_spec hcat1 h2
  exact ⟨hSO.2.1, hSO.2.2.1, hSO.2.2.2.1, fun hne => hshr hM1 hne⟩

/-- Witness for the amended C4 on a concrete reachable state and event. -/
theorem C4_monotonicity_witness :
    replay tinyCfg [.hasCard 0 "s1"] tinyKB =
      some (.ok (replayOkD tinyCfg [.hasCard 0 "s1"] tinyKB)) ∧
    applyEvent tinyCfg (.doesNotHave 1 "w1") (replayOkD tinyCfg [.hasCard 0 "s1"] tinyKB)
      = some (.ok (recordDoesNotHave (replayOkD tinyCfg [.hasCard 0 "s1"] tinyKB) 1
        "w1")) ∧
    (recordDoesNotHave (replayOkD tinyCfg [.hasCard 0 "s1"] tinyKB) 1
        "w1").unknown_cards ⊆
      (replayOkD tinyCfg [.hasCard 0 "s1"] tinyKB).unknown_cards :=
  ⟨by decide, by decide,
    (C4_monotonicity tinyCfg ["A", "B"] [.hasCard 0 "s1"] (.doesNotHave 1 "w1") _ _
      (by decide) (by decide)).2.2.1⟩

/-- C6: `record_showed_one_of` contract over the narrowed candidate set `S`
(the candidates the player could hold): empty `S` is a silent no-op, a
singleton `S = {c}` behaves exactly as `record_has_card(player, c)` with no
constraint stored, and a larger `S` only appends the Disjunctive Constraint
`(player, S)` to the live list. -/
theorem C6_record_showed_one_of_contract (cfg : CluedoConfiguration)
    (kb : KnowledgeBase) (i : Nat) (possible : Finset String) :
    (possible.filter (fun c => (getPlayer kb i).mightHaveCard c) = ∅ →
      recordShowedOneOf cfg kb i possible = .ok kb) ∧
    (∀ c, possible.filter (fun c => (getPlayer kb i).mightHaveCard c) = {c} →
      recordShowedOneOf cfg kb i possible = recordHasCard cfg kb i c) ∧
    (1 < (possible.filter (fun c => (getPlayer kb i).mightHaveCard c)).card →
      recordShowedOneOf cfg kb i possible = .ok
        { kb with constraints := kb.constraints ++
            [⟨i, possible.filter (fun c => (getPlayer kb i).mightHaveCard c)⟩] }) := by
  refine ⟨?_, ?_, ?_⟩
  · intro h
    unfold recordShowedOneOf
    dsimp only
    rw [h]
    simp
  · intro c h
    unfold recordShowedOneOf
    dsimp only
    rw [h]
    simp [Finset.sort_singleton]
  · intro h
    unfold recordShowedOneOf
    dsimp only
    rw [if_neg (by omega), if_neg (by omega)]

/-- Witness for C6 in the constraint-storing case on a concrete input. -/
theorem C6_record_showed_one_of_contract_witness :
    1 < (Finset.filter (fun c => (getPlayer tinyKB 0).mightHaveCard c)
      {"s1", "w1"}).card ∧
    recordShowedOneOf tinyCfg tinyKB 0 {"s1", "w1"} = .ok
      { tinyKB with constraints := tinyKB.constraints ++
          [⟨0, Finset.filter (fun c => (getPlayer tinyKB 0).mightHaveCard c)
            {"s1", "w1"}⟩] } :=
  ⟨by decide,
    (C6_record_showed_one_of_contract tinyCfg tinyKB 0 {"s1", "w1"}).2.2 (by decide)⟩

theorem markNot_name (p : Player) (card : String) :
    (p.markNotCard card).name = p.name := rfl

theorem setSol_log (kb : KnowledgeBase) (t : CardType) (s : Finset String) :
    (kb.setSol t s).log = kb.log := by
  cases t <;> rfl

theorem rhc_extra_spec {cfg : CluedoConfiguration} {kb : KnowledgeBase} {i : Nat}
    {card : String} {kb' : KnowledgeBase} (h : recordHasCard cfg kb i card = .ok kb') :
    kb'.log = kb.log ∧
    (∀ j, (getPlayer kb' j).name = (getPlayer kb j).name) ∧
    (∀ j x, x ∈ (getPlayer kb' j).cards →
      x ∈ (getPlayer kb j).cards ∨ (j = i ∧ x = card)) := by
  rcases recordHasCard_ok_cases h with ⟨_, rfl⟩ | ⟨hm, hc, ct, hct, rfl⟩
  · exact ⟨rfl, fun _ => rfl, fun j x hx => Or.inl hx⟩
  · have hlen := rhcState_players_length kb i card ct
    refine ⟨by rw [rhcState, setSol_log], ?_, ?_⟩
    · intro j
      by_cases hj : j < kb.players.length
      · by_cases hji : j = i
        · subst hji
          rw [getPlayer_rhcState_self card ct hj]
        · rw [getPlayer_rhcState_ne card ct hji hj, markNot_name]
      · rw [getPlayer_oob (hlen ▸ Nat.le_of_not_lt hj),
          getPlayer_oob (Nat.le_of_not_lt hj)]
    · intro j x hx
      by_cases hj : j < kb.players.length
      · by_cases hji : j = i
        · subst hji
          rw [getPlayer_rhcState_self card ct hj] at hx
          rcases Finset.mem_insert.mp hx with rfl | hx2
          · exact Or.inr ⟨rfl, rfl⟩
          · exact Or.inl hx2
        · rw [getPlayer_rhcState_ne card ct hji hj, markNot_cards] at hx
          exact Or.inl hx
      · rw [getPlayer_oob (hlen ▸ Nat.le_of_not_lt hj)] at hx
        simp [dfltPlayer] at hx

theorem rhc_ok_of_catalog {cfg : CluedoConfiguration} {kb : KnowledgeBase} {i : Nat}
    {card : String} (hc : card ∈ cfg.cards) :
    ∃ kb2, recordHasCard cfg kb i card = .ok kb2 := by
  by_cases hm : card ∈ (getPlayer kb i).cards
  · exact ⟨kb, recordHasCard_mem hm⟩
  · obtain ⟨ct, hct⟩ := getCardType_of_mem hc
    exact ⟨rhcState kb i card ct, recordHasCard_not_mem hm hc hct⟩

theorem narrow_impossible_mono {ct : Constraint} {p q : Player}
    (hc : p.cards ⊆ q.cards) (hn : p.not_cards ⊆ q.not_cards)
    (h : (ct.narrow p).impossible) : (ct.narrow q).impossible := by
  unfold Constraint.narrow Constraint.impossible at h ⊢
  rw [Finset.card_eq_zero] at h ⊢
  rw [Finset.eq_empty_iff_forall_not_mem] at h ⊢
  intro x hx
  obtain ⟨hx1, hx2⟩ := Finset.mem_filter.mp hx
  refine h x (Finset.mem_filter.mpr ⟨hx1, ?_, ?_⟩)
  · exact fun hmem => hx2.1 (hc hmem)
  · exact fun hmem => hx2.2 (hn hmem)

theorem pcStep_ok_of_catalog {cfg : CluedoConfiguration} {kb : KnowledgeBase}
    {ncs : List Constraint} {b : Bool} {ct : Constraint}
    (hcat : ∀ x ∈ ct.possible_cards, x ∈ cfg.cards) :
    ∃ kb' ncs' b', pcStep cfg (kb, ncs, b) ct = .ok (kb', ncs', b') ∧
      (∃ l, kb'.log = kb.log ++ l) ∧
      ((ct.narrow (getPlayer kb ct.playerIdx)).impossible →
        LogMsg.contradiction (getPlayer kb ct.playerIdx).name ct.possible_cards
          ∈ kb'.log) ∧
      (∀ j, (getPlayer kb' j).name = (getPlayer kb j).name) ∧
      (∀ j, (getPlayer kb j).cards ⊆ (getPlayer kb' j).cards) ∧
      (∀ j, (getPlayer kb j).not_cards ⊆ (getPlayer kb' j).not_cards) ∧
      (∀ j x, x ∈ (getPlayer kb' j).cards →
        x ∈ (getPlayer kb j).cards ∨ x ∉ (getPlayer kb j).not_cards) ∧
      (∀ c' ∈ ncs', c' ∈ ncs ∨ (¬ c'.impossible ∧ ¬ c'.resolved)) ∧
      kb'.constraints = kb.constraints := by
  by_cases himp : (ct.narrow (getPlayer kb ct.playerIdx)).impossible
  · refine ⟨{ kb with log := kb.log ++
        [.contradiction (getPlayer kb ct.playerIdx).name ct.possible_cards] }, ncs, b,
      ?_, ⟨_, rfl⟩, ?_, fun _ => rfl, fun _ => Finset.Subset.refl _,
      fun _ => Finset.Subset.refl _, fun j x hx => Or.inl hx,
      fun c' hc' => Or.inl hc', rfl⟩
    · unfold pcStep
      dsimp only
      rw [if_pos himp]
    · intro _
      exact List.mem_append.mpr (Or.inr (List.mem_singleton_self _))
  · by_cases hres : (ct.narrow (getPlayer kb ct.playerIdx)).resolved
    · obtain ⟨a, ha⟩ := Finset.card_eq_one.mp hres
      have hamem : a ∈ (ct.narrow (getPlayer kb ct.playerIdx)).possible_cards :=
        ha ▸ Finset.mem_singleton_self a
      have hamight : (getPlayer kb ct.playerIdx).mightHaveCard a :=
        (Finset.mem_filter.mp hamem).2
      have hain : a ∈ ct.possible_cards := (Finset.mem_filter.mp hamem).1
      obtain ⟨kb2, hr⟩ := @rhc_ok_of_catalog cfg
        { kb with log := kb.log ++ [.mustHave (getPlayer kb ct.playerIdx).name a] }
        ct.playerIdx a (hcat a hain)
      obtain ⟨hSO, _, hcons, _, _, _⟩ := rhc_spec hr
      obtain ⟨hlog2, hnames2, hnew2⟩ := rhc_extra_spec hr
      refine ⟨kb2, ncs, true, ?_, ⟨_, hlog2⟩, fun h => absurd h himp,
        fun j => hnames2 j, fun j => hSO.2.1 j, fun j => hSO.2.2.1 j, ?_,
        fun c' hc' => Or.inl hc', hcons⟩
      · unfold pcStep
        dsimp only
        rw [if_neg himp, if_pos hres, ha, Finset.sort_singleton]
        simp only [List.headD_cons]
        rw [hr]
        simp only [Bind.bind, Except.bind]
      · intro j x hx
        rcases hnew2 j x hx with hold | ⟨hj, hx2⟩
        · exact Or.inl hold
        · subst hj
          subst hx2
          exact Or.inr hamight.2
    · refine ⟨kb, ncs ++ [ct.narrow (getPlayer kb ct.playerIdx)], b, ?_,
        ⟨[], (List.append_nil _).symm⟩, fun h => absurd h himp, fun _ => rfl,
        fun _ => Finset.Subset.refl _, fun _ => Finset.Subset.refl _,
        fun j x hx => Or.inl hx, ?_, rfl⟩
      · unfold pcStep
        dsimp only
        rw [if_neg himp, if_neg hres]
      · intro c' hc'
        rcases List.mem_append.mp hc' with h | h
        · exact Or.inl h
        · rw [List.mem_singleton.mp h]
          exact Or.inr ⟨himp, hres⟩

theorem pc_fold_ok_of_catalog {cfg : CluedoConfiguration} :
    ∀ (cs : List Constraint) (kb : KnowledgeBase) (ncs : List Constraint) (b : Bool),
      (∀ c ∈ cs, ∀ x ∈ c.possible_cards, x ∈ cfg.cards) →
      ∃ kb' ncs' b', cs.foldlM (pcStep cfg) (kb, ncs, b) = .ok (kb', ncs', b') ∧
        (∃ l, kb'.log = kb.log ++ l) ∧
        (∀ ct ∈ cs, (ct.narrow (getPlayer kb ct.playerIdx)).impossible →
          LogMsg.contradiction (getPlayer kb ct.playerIdx).name ct.possible_cards
            ∈ kb'.log) ∧
        (∀ j, (getPlayer kb' j).name = (getPlayer kb j).name) ∧
        (∀ j, (getPlayer kb j).cards ⊆ (getPlayer kb' j).cards) ∧
        (∀ j, (getPlayer kb j).not_cards ⊆ (getPlayer kb' j).not_cards) ∧
        (∀ j x, x ∈ (getPlayer kb' j).cards →
          x ∈ (getPlayer kb j).cards ∨ x ∉ (getPlayer kb j).not_cards) ∧
        (∀ c' ∈ ncs', c' ∈ ncs ∨ (¬ c'.impossible ∧ ¬ c'.resolved)) ∧
        kb'.constraints = kb.constraints
  | [], kb, ncs, b, _ =>
    ⟨kb, ncs, b, by simp [List.foldlM_nil, pure, Except.pure],
      ⟨[], (List.append_nil _).symm⟩,
      fun ct hct => absurd hct (List.not_mem_nil ct),
      fun _ => rfl, fun _ => Finset.Subset.refl _, fun _ => Finset.Subset.refl _,
      fun j x hx => Or.inl hx, fun c' hc' => Or.inl hc', rfl⟩
  | c :: cs, kb, ncs, b, hcat => by
    obtain ⟨kb1, ncs1, b1, hstep, ⟨l1, hlog1⟩, himp1, hnames1, hcsub1, hnsub1, hnew1,
        hncs1, hcons1⟩ :=
      @pcStep_ok_of_catalog cfg kb ncs b c (hcat c (List.mem_cons_self c cs))
    obtain ⟨kb', ncs', b', hfold, ⟨l2, hlog2⟩, himp2, hnames2, hcsub2, hnsub2, hnew2,
        hncs2, hcons2⟩ :=
      pc_fold_ok_of_catalog cs kb1 ncs1 b1
        (fun c' hc' => hcat c' (List.mem_cons_of_mem c hc'))
    refine ⟨kb', ncs', b', ?_, ⟨l1 ++ l2, ?_⟩, ?_, fun j => (hnames2 j).trans (hnames1 j),
      fun j => (hcsub1 j).trans (hcsub2 j), fun j => (hnsub1 j).trans (hnsub2 j),
      ?_, ?_, hcons2.trans hcons1⟩
    · rw [List.foldlM_cons, hstep]
      simp only [Bind.bind, Except.bind]
      exact hfold
    · rw [hlog2, hlog1, List.append_assoc]
    · intro ct hct himpct
      rcases List.mem_cons.mp hct with rfl | htail
      · rw [hlog2]
        exact List.mem_append.mpr (Or.inl (himp1 himpct))
      · have himpct1 : (ct.narrow (getPlayer kb1 ct.playerIdx)).impossible :=
          narrow_impossible_mono (hcsub1 _) (hnsub1 _) himpct
        have hmsg := himp2 ct htail himpct1
        rw [hnames1 ct.playerIdx] at hmsg
        exact hmsg
    · intro j x hx
      rcases hnew2 j x hx with h1 | h1
      · exact hnew1 j x h1
      · exact Or.inr (fun hmem => h1 (hnsub1 j hmem))
    · intro c' hc'
      rcases hncs2 c' hc' with h1 | h1
      · exact hncs1 c' h1
      · exact Or.inr h1

/-- Counterexample to C7 as stated: in `c7BadKB` the stored constraint
`(player 0, {s1})` has narrowed to zero candidates, yet `deduce()` raises: a
second constraint of the same pass resolves to the non-catalog card `bogus`,
`record_has_card` raises `ValueError`, the exception escapes `deduce()`, and
the `constraints = new_constraints` reassignment is never reached, so the
zero-candidate constraint is not dropped either. -/
theorem C7_counterexample :
    (⟨0, {"s1"}⟩ : Constraint) ∈ c7BadKB.constraints ∧
    ((⟨0, {"s1"}⟩ : Constraint).narrow (getPlayer c7BadKB 0)).impossible ∧
    deduce tinyCfg c7BadKB = some (.error (.valueError "Not a valid card")) := by
  refine ⟨by decide, by decide, ?_⟩
  have huo : deduceUniqueOwner tinyCfg c7BadKB = .ok (c7BadKB, false) := by
    unfold deduceUniqueOwner
    rw [show c7BadKB.unknown_cards = (∅ : Finset String) from rfl, Finset.sort_empty]
    rfl
  have hs1 : scStep (c7BadKB, false) CardType.suspect = (c7BadKB, false) := by
    unfold scStep
    dsimp only
    rw [if_neg (by decide)]
  have hs2 : scStep (c7BadKB, false) CardType.weapon = (c7BadKB, false) := by
    unfold scStep
    dsimp only
    rw [if_neg (by decide)]
  have hs3 : scStep (c7BadKB, false) CardType.location = (c7BadKB, false) := by
    unfold scStep
    dsimp only
    rw [if_neg (by decide)]
  have hsc : deduceSolutionCards c7BadKB = (c7BadKB, false) := by
    unfold deduceSolutionCards
    rw [List.foldl_cons, hs1, List.foldl_cons, hs2, List.foldl_cons, hs3,
      List.foldl_nil]
  have hstep1 : pcStep tinyCfg (c7BadKB, [], false) ⟨0, {"s1"}⟩ = .ok
      ({ c7BadKB with log := c7BadKB.log ++
        [.contradiction (getPlayer c7BadKB 0).name {"s1"}] }, [], false) := by
    unfold pcStep
    dsimp only
    rw [if_pos (by decide)]
  have hstep2 : pcStep tinyCfg
      ({ c7BadKB with log := c7BadKB.log ++
        [.contradiction (getPlayer c7BadKB 0).name {"s1"}] }, [], false)
      ⟨1, {"bogus"}⟩ = .error (.valueError "Not a valid card") := by
    unfold pcStep
    dsimp only
    rw [if_neg (by decide), if_pos (by decide)]
    rw [show ((⟨1, {"bogus"}⟩ : Constraint).narrow (getPlayer
        { c7BadKB with log := c7BadKB.log ++
          [.contradiction (getPlayer c7BadKB 0).name {"s1"}] }
        (⟨1, {"bogus"}⟩ : Constraint).playerIdx)).possible_cards
        = ({"bogus"} : Finset String) from by decide]
    rw [Finset.sort_singleton]
    simp only [List.headD_cons]
    rw [recordHasCard_invalid (by decide) (by decide)]
    rfl
  have hpc : propagateConstraints tinyCfg c7BadKB =
      .error (.valueError "Not a valid card") := by
    unfold propagateConstraints
    rw [show c7BadKB.constraints = [⟨0, {"s1"}⟩, ⟨1, {"bogus"}⟩] from rfl]
    rw [List.foldlM_cons, hstep1]
    simp only [Bind.bind, Except.bind]
    rw [List.foldlM_cons, hstep2]
    rfl
  have hpass : deducePass tinyCfg c7BadKB = .error (.valueError "Not a valid card") := by
    unfold deducePass
    rw [huo]
    simp only [Bind.bind, Except.bind]
    rw [hsc]
    dsimp only
    rw [hpc]
  show deduceAux tinyCfg (kbMeasure tinyCfg c7BadKB + 1) c7BadKB = _
  unfold deduceAux
  rw [hpass]

/-- C7 amended: whenever a stored Disjunctive Constraint has narrowed to zero
candidates, a propagate pass in which every live constraint's candidate cards
lie in the catalog reports the contradiction on the console log, removes the
constraint from the live list (no contradictory or resolved constraint remains
live) without calling `record_has_card` for it (no candidate of the
contradictory constraint is granted to its player), and returns normally — no
exception escapes.  (If instead another constraint of the pass resolves to a
card outside the catalog, `record_has_card` raises `ValueError` which escapes
`deduce()` and the zero-candidate constraint is never dropped, as the
counterexample shows.) -/
theorem C7_contradiction_reported (cfg : CluedoConfiguration) (kb : KnowledgeBase)
    (ct : Constraint) (hmem : ct ∈ kb.constraints)
    (himp : (ct.narrow (getPlayer kb ct.playerIdx)).impossible)
    (hcat : ∀ c ∈ kb.constraints, ∀ x ∈ c.possible_cards, x ∈ cfg.cards) :
    ∃ kb' ch, propagateConstraints cfg kb = .ok (kb', ch) ∧
      LogMsg.contradiction (getPlayer kb ct.playerIdx).name ct.possible_cards
        ∈ kb'.log ∧
      (∀ c' ∈ kb'.constraints, ¬ c'.impossible ∧ ¬ c'.resolved) ∧
      (∀ x ∈ ct.possible_cards, x ∉ (getPlayer kb ct.playerIdx).cards →
        x ∉ (getPlayer kb' ct.playerIdx).cards) := by
  obtain ⟨kbf, ncsf, bf, hfold, hlog, himps, hnames, hcsub, hnsub, hnew, hncs, hcons⟩ :=
    pc_fold_ok_of_catalog kb.constraints kb [] false hcat
  refine ⟨{ kbf with constraints := ncsf }, bf, ?_, ?_, ?_, ?_⟩
  · unfold propagateConstraints
    rw [hfold]
    rfl
  · exact himps ct hmem himp
  · intro c' hc'
    dsimp only at hc'
    rcases hncs c' hc' with h | h
    · exact absurd h (List.not_mem_nil c')
    · exact h
  · intro x hxin hxcards hxmem
    have hxnot : x ∈ (getPlayer kb ct.playerIdx).not_cards := by
      have hemp := Finset.card_eq_zero.mp himp
      by_contra hxn
      have hmem2 : x ∈ (ct.narrow (getPlayer kb ct.playerIdx)).possible_cards :=
        Finset.mem_filter.mpr ⟨hxin, hxcards, hxn⟩
      rw [hemp] at hmem2
      exact absurd hmem2 (Finset.not_mem_empty x)
    rcases hnew ct.playerIdx x hxmem with h | h
    · exact hxcards h
    · exact h hxnot

/-- Witness for the amended C7 on the concrete state `c7KB`, whose single
stored constraint (player 0 showed one of `{s1}`, a catalog card) has narrowed
to zero candidates. -/
theorem C7_contradiction_reported_witness :
    (⟨0, {"s1"}⟩ : Constraint) ∈ c7KB.constraints ∧
    ((⟨0, {"s1"}⟩ : Constraint).narrow (getPlayer c7KB 0)).impossible ∧
    (∀ c ∈ c7KB.constraints, ∀ x ∈ c.possible_cards, x ∈ tinyCfg.cards) ∧
    (∃ kb' ch, propagateConstraints tinyCfg c7KB = .ok (kb', ch) ∧
      LogMsg.contradiction (getPlayer c7KB 0).name {"s1"} ∈ kb'.log ∧
      (∀ c' ∈ kb'.constraints, ¬ c'.impossible ∧ ¬ c'.resolved)) := by
  refine ⟨by decide, by decide, by decide, ?_⟩
  obtain ⟨kb', ch, h1, h2, h3, _⟩ :=
    C7_contradiction_reported tinyCfg c7KB ⟨0, {"s1"}⟩ (by decide) (by decide)
      (by decide)
  exact ⟨kb', ch, h1, h2, h3⟩

/-- C9: replaying one event sequence against two freshly constructed knowledge
bases built from the same configuration and the same player roster yields
identical results (final state or error): the engine is deterministic — no
operation consults randomness, time, or any input other than its arguments,
which the pure embedding makes definitional. -/
theorem C9_replay_deterministic (cfg1 cfg2 : CluedoConfiguration)
    (names1 names2 : List String) (es : List Event)
    (hc : cfg1 = cfg2) (hn : names1 = names2) :
    replay cfg1 es (initKB cfg1 names1) = replay cfg2 es (initKB cfg2 names2) := by
  subst hc
  subst hn
  rfl

/-- Witness for C9 on a concrete configuration, roster and event sequence. -/
theorem C9_replay_deterministic_witness :
    replay tinyCfg [.hasCard 0 "s1", .doesNotHave 1 "w1"] (initKB tinyCfg ["A", "B"]) =
      replay tinyCfg [.hasCard 0 "s1", .doesNotHave 1 "w1"]
        (initKB tinyCfg ["A", "B"]) :=
  C9_replay_deterministic tinyCfg tinyCfg ["A", "B"] ["A", "B"]
    [.hasCard 0 "s1", .doesNotHave 1 "w1"] rfl rfl

theorem getCardType_suspect_elim {cfg : CluedoConfiguration} {c : String}
    (h : getCardType cfg c = .ok .suspect) : c ∈ cfg.suspects := by
  unfold getCardType at h
  split at h
  · next hs => exact hs
  · split at h
    · cases h
    · split at h
      · cases h
      · cases h

theorem getCardType_weapon_elim {cfg : CluedoConfiguration} {c : String}
    (h : getCardType cfg c = .ok .weapon) : c ∉ cfg.suspects ∧ c ∈ cfg.weapons := by
  unfold getCardType at h
  split at h
  · cases h
  · next hs =>
    split at h
    · next hw => exact ⟨hs, hw⟩
    · split at h
      · cases h
      · cases h

theorem getCardType_location_elim {cfg : CluedoConfiguration} {c : String}
    (h : getCardType cfg c = .ok .location) :
    c ∉ cfg.suspects ∧ c ∉ cfg.weapons ∧ c ∈ cfg.locations := by
  unfold getCardType at h
  split at h
  · cases h
  · next hs =>
    split at h
    · cases h
    · next hw =>
      split at h
      · next hl => exact ⟨hs, hw, hl⟩
      · cases h

theorem KnowledgeBase.ext' {a b : KnowledgeBase} (h1 : a.players = b.players)
    (h2 : a.unknown_cards = b.unknown_cards) (h3 : a.constraints = b.constraints)
    (h4 : a.sol_suspect = b.sol_suspect) (h5 : a.sol_weapon = b.sol_weapon)
    (h6 : a.sol_location = b.sol_location) (h7 : a.log = b.log) : a = b := by
  cases a
  cases b
  dsimp only at h1 h2 h3 h4 h5 h6 h7
  subst h1
  subst h2
  subst h3
  subst h4
  subst h5
  subst h6
  subst h7
  rfl

theorem noOneStep_char {cfg : CluedoConfiguration} {yourIdx : Nat} {c : String}
    {ct : CardType} (hct : getCardType cfg c = .ok ct) (kb : KnowledgeBase) :
    noOneShowedStep cfg yourIdx kb c = .ok
      (if c ∈ (getPlayer kb yourIdx).cards then kb else collapseState kb c ct) := by
  unfold noOneShowedStep
  by_cases hc : c ∈ (getPlayer kb yourIdx).cards
  · rw [if_pos hc, if_pos hc]
  · rw [if_neg hc, if_neg hc, hct]
    rfl

/-- C5: `record_no_one_showed(suggestion, observer)` contract, for a suggestion
whose three cards categorize as suspect, weapon and location: every suggested
card not held by the observer collapses its category's Solution Candidate Set
to that singleton, is reported, and is removed from `unknown_cards`; suggested
cards the observer holds change nothing; players and constraints are
untouched. -/
theorem C5_record_no_one_showed (cfg : CluedoConfiguration) (kb : KnowledgeBase)
    (sugg : Suggestion) (yourIdx : Nat)
    (hs : getCardType cfg sugg.suspect = .ok .suspect)
    (hw : getCardType cfg sugg.weapon = .ok .weapon)
    (hl : getCardType cfg sugg.location = .ok .location) :
    recordNoOneShowed cfg kb sugg yourIdx = .ok
      { kb with
        sol_suspect := (if sugg.suspect ∈ (getPlayer kb yourIdx).cards then
          kb.sol_suspect else {sugg.suspect})
        sol_weapon := (if sugg.weapon ∈ (getPlayer kb yourIdx).cards then
          kb.sol_weapon else {sugg.weapon})
        sol_location := (if sugg.location ∈ (getPlayer kb yourIdx).cards then
          kb.sol_location else {sugg.location})
        unknown_cards := (kb.unknown_cards \ Finset.filter
          (fun c => c ∉ (getPlayer kb yourIdx).cards)
          {sugg.suspect, sugg.weapon, sugg.location})
        log := (kb.log ++ ([sugg.suspect, sugg.weapon, sugg.location].filter
          (fun c => c ∉ (getPlayer kb yourIdx).cards)).map LogMsg.mustBeSolution) } := by
  have hsS := getCardType_suspect_elim hs
  obtain ⟨hwNS, hwW⟩ := getCardType_weapon_elim hw
  obtain ⟨hlNS, hlNW, hlL⟩ := getCardType_location_elim hl
  have hws : sugg.weapon ≠ sugg.suspect := fun h => hwNS (h ▸ hsS)
  have hls : sugg.location ≠ sugg.suspect := fun h => hlNS (h ▸ hsS)
  have hlw : sugg.location ≠ sugg.weapon := fun h => hlNW (h ▸ hwW)
  unfold recordNoOneShowed Suggestion.cardsList
  have hdd : ([sugg.suspect, sugg.weapon, sugg.location] : List String).dedup
      = [sugg.suspect, sugg.weapon, sugg.location] := by
    rw [List.dedup_eq_self]
    refine List.nodup_cons.mpr ⟨?_, List.nodup_cons.mpr ⟨?_, List.nodup_singleton _⟩⟩
    · simp only [List.mem_cons, List.mem_singleton, not_or]
      exact ⟨fun h => hws h.symm, fun h => hls h.symm, List.not_mem_nil _⟩
    · simp only [List.mem_singleton]
      exact fun h => hlw h.symm
  rw [hdd]
  by_cases h1 : sugg.suspect ∈ (getPlayer kb yourIdx).cards <;>
    by_cases h2 : sugg.weapon ∈ (getPlayer kb yourIdx).cards <;>
      by_cases h3 : sugg.location ∈ (getPlayer kb yourIdx).cards <;>
  · simp only [List.foldlM_cons, List.foldlM_nil, noOneStep_char hs,
      noOneStep_char hw, noOneStep_char hl, Bind.bind, Except.bind, pure, Except.pure,
      getPlayer_collapseState, h1, h2, h3, if_true, if_false, ite_true, ite_false]
    try simp only [collapseState, KnowledgeBase.setSol]
    rw [Except.ok.injEq]
    apply KnowledgeBase.ext' <;>
      first
        | rfl
        | (simp [Finset.filter_insert, Finset.filter_union, Finset.filter_singleton,
             h1, h2, h3, not_not, Finset.erase_eq, sdiff_sdiff, Finset.insert_eq,
             List.filter_cons, List.filter_nil, List.append_assoc]
           done)

/-- Witness for C5: observer holds the suggested suspect but not the weapon or
location, so exactly those two categories collapse. -/
theorem C5_record_no_one_showed_witness :
    recordNoOneShowed tinyCfg heldKB ⟨"s1", "w1", "l1"⟩ 0 = .ok
      { heldKB with
        sol_suspect := (if "s1" ∈ (getPlayer heldKB 0).cards then
          heldKB.sol_suspect else {"s1"})
        sol_weapon := (if "w1" ∈ (getPlayer heldKB 0).cards then
          heldKB.sol_weapon else {"w1"})
        sol_location := (if "l1" ∈ (getPlayer heldKB 0).cards then
          heldKB.sol_location else {"l1"})
        unknown_cards := (heldKB.unknown_cards \ Finset.filter
          (fun c => c ∉ (getPlayer heldKB 0).cards) {"s1", "w1", "l1"})
        log := (heldKB.log ++ (["s1", "w1", "l1"].filter
          (fun c => c ∉ (getPlayer heldKB 0).cards)).map LogMsg.mustBeSolution) } :=
  C5_record_no_one_showed tinyCfg heldKB ⟨"s1", "w1", "l1"⟩ 0 (by decide) (by decide)
    (by decide)

end Cluedo
